import Mathlib

/-!
Shallow embedding of konsole's profile subsystem (Profile.h / Profile.cpp /
SessionManager.cpp) and proofs about it.

Modelling conventions:
* `QVariant` is modelled as a small tagged union covering the value types the
  property registry declares (string, string list, int, bool, font, color)
  plus the null variant.
* A property map (`QHash<Property,QVariant>`) is modelled as a function
  `Property → Option QVariant`; `none` means the key is absent,
  `some QVariant.null` means the key is present with a null value
  (QHash distinguishes the two, and so does the code).
* `Profile` objects form a tree through the `parent` pointer; reference
  sharing is irrelevant for the properties proved here unless noted at the
  definition that models it.
-/

namespace Konsole

/-- The `Profile::Property` enum from Profile.h, in declaration order.
`Path` is the first enumerator, hence has the underlying value 0. -/
inductive Property
  | Path | Name | Title | Icon | Command | Arguments | Environment | Directory
  | LocalTabTitleFormat | RemoteTabTitleFormat | ShowMenuBar
  | ShowTerminalSizeHint | SaveGeometryOnExit | TabBarMode | Font | ColorScheme
  | KeyBindings | HistoryMode | HistorySize | ScrollBarPosition
  | BidiRenderingEnabled | CJKAmbiguousWide | BlinkingTextEnabled
  | FlowControlEnabled | AllowProgramsToResizeWindow | BlinkingCursorEnabled
  | UseCustomCursorColor | CursorShape | CustomCursorColor | WordCharacters
  | TabBarPosition | NewTabBehavior | TripleClickMode | UnderlineLinksEnabled
  | DefaultEncoding | AntiAliasFonts | BoldIntense | StartInCurrentSessionDir
  | ShowNewAndCloseTabButtons | SilenceSeconds | MenuIndex
  deriving DecidableEq, Fintype

/-- Model of `QVariant` restricted to the value types used by the registry. -/
inductive QVariant
  | null
  | str (s : String)
  | strList (l : List String)
  | int (n : Int)
  | bool (b : Bool)
  | font (f : String)
  | color (c : String)
  deriving DecidableEq

/-- `QVariant::isNull`. -/
def QVariant.isNull : QVariant → Bool
  | QVariant.null => true
  | _ => false

/-- `QVariant::value<QString>()`: the string stored in a string variant,
the empty string for the null variant, decimal rendering for ints. -/
def toQString : QVariant → String
  | QVariant.str s => s
  | QVariant.int n => toString n
  | _ => ""

/-- A property map, the model of `QHash<Profile::Property,QVariant>`. -/
def PropMap : Type := Property → Option QVariant

instance : DecidableEq PropMap :=
  fun f g => decidable_of_iff (∀ x, f x = g x) funext_iff.symm

/-- The empty property map. -/
def PropMap.empty : PropMap := fun _ => none

/-- `QHash::insert`: replaces any existing value for the key. -/
def PropMap.insert (m : PropMap) (x : Property) (v : QVariant) : PropMap :=
  fun y => if y = x then some v else m y

theorem PropMap.insert_same (m : PropMap) (x : Property) (v : QVariant) :
    m.insert x v x = some v := by simp [PropMap.insert]

theorem PropMap.insert_other (m : PropMap) (x y : Property) (v : QVariant)
    (h : y ≠ x) : m.insert x v y = m y := by simp [PropMap.insert, h]

/-- `Profile::canInheritProperty` (Profile.h line 470):
every property other than `Name` and `Path` can be inherited. -/
def canInheritProperty (x : Property) : Bool :=
  x ≠ Property.Name && x ≠ Property.Path

/-- A `Profile` object: its local property hash `_propertyValues`, its
`_parent` pointer and its `_hidden` flag. -/
inductive Profile
  | mk (values : PropMap) (parent : Option Profile) (hidden : Bool)

/-- The `_propertyValues` hash of a profile. -/
def Profile.values : Profile → PropMap
  | Profile.mk v _ _ => v

/-- The `_parent` pointer of a profile. -/
def Profile.parentOf : Profile → Option Profile
  | Profile.mk _ p _ => p

/-- The `_hidden` flag of a profile. -/
def Profile.hiddenFlag : Profile → Bool
  | Profile.mk _ _ h => h

/-- A profile with no properties set, no parent, not hidden
(`Profile::Profile(Ptr())`). -/
def Profile.empty : Profile := Profile.mk PropMap.empty none false

instance : Inhabited Profile := ⟨Profile.empty⟩

/-- `Profile::property<QVariant>` (Profile.h lines 457-469): the local value
if the key is present, else the parent's resolved value when a parent exists
and the property is inheritable, else the null variant.  (The two C++
branches "no parent" / "parent" are split into two equations; `Option.getD`
renders "return the local value if the hash contains the key, else the
fallback".) -/
def Profile.property : Profile → Property → QVariant
  | Profile.mk v none _, x => (v x).getD QVariant.null
  | Profile.mk v (some q) _, x =>
    (v x).getD
      (if canInheritProperty x then Profile.property q x else QVariant.null)

/-- `Profile::isPropertySet` (Profile.cpp lines 252-255): membership in the
local hash only. -/
def Profile.isPropertySet (p : Profile) (x : Property) : Bool :=
  (p.values x).isSome

/-- `Profile::setProperty` (Profile.cpp lines 248-251). -/
def Profile.setProperty (p : Profile) (x : Property) (v : QVariant) : Profile :=
  Profile.mk (p.values.insert x v) p.parentOf p.hiddenFlag

/-- `Profile::setParent` (Profile.cpp line 237). -/
def Profile.withParent (p : Profile) (par : Option Profile) : Profile :=
  Profile.mk p.values par p.hiddenFlag

theorem Profile.property_eq (p : Profile) (x : Property) :
    p.property x =
      (p.values x).getD
        (match p.parentOf with
         | some q =>
           if canInheritProperty x then q.property x else QVariant.null
         | none => QVariant.null) := by
  cases p with
  | mk v par h => cases par <;> rfl

theorem Profile.values_setProperty (p : Profile) (x : Property) (v : QVariant) :
    (p.setProperty x v).values = p.values.insert x v := rfl

theorem Profile.parentOf_setProperty (p : Profile) (x : Property)
    (v : QVariant) : (p.setProperty x v).parentOf = p.parentOf := rfl

theorem Profile.hiddenFlag_setProperty (p : Profile) (x : Property)
    (v : QVariant) : (p.setProperty x v).hiddenFlag = p.hiddenFlag := rfl

/-- Resolution only depends on the local value of the key and on the parent
pointer. -/
theorem Profile.property_congr {p q : Profile} (x : Property)
    (hv : p.values x = q.values x) (hp : p.parentOf = q.parentOf) :
    p.property x = q.property x := by
  rw [Profile.property_eq, Profile.property_eq, hv, hp]

/-- Setting one property does not change the resolution of another. -/
theorem Profile.property_setProperty_other (p : Profile) {x y : Property}
    (v : QVariant) (h : y ≠ x) :
    (p.setProperty x v).property y = p.property y := by
  refine Profile.property_congr y ?_ rfl
  exact PropMap.insert_other _ _ _ _ h

theorem Profile.property_setProperty_same (p : Profile) (x : Property)
    (v : QVariant) : (p.setProperty x v).property x = v := by
  rw [Profile.property_eq]
  simp [Profile.values_setProperty, PropMap.insert_same]

/-- C1: `Profile::property(X)` returns the locally stored value when `X` is
locally set; otherwise, when the profile has a parent and `X` is inheritable
(neither `Name` nor `Path`), it returns the parent's resolved value;
otherwise it returns the null variant.  For `Name` and `Path` the parent is
never consulted (resolution is invariant under replacing the parent), and
`isPropertySet` reports local presence only (also invariant under replacing
the parent). -/
theorem C1_property_resolution (P : Profile) (X : Property) :
    (∀ v, P.values X = some v → P.property X = v) ∧
    (∀ Q, P.values X = none → P.parentOf = some Q → canInheritProperty X →
      P.property X = Q.property X) ∧
    (P.values X = none → P.parentOf = none → P.property X = QVariant.null) ∧
    (P.values X = none → ¬ canInheritProperty X →
      P.property X = QVariant.null) ∧
    ((X = Property.Name ∨ X = Property.Path) →
      ∀ r, (P.withParent r).property X = P.property X) ∧
    (P.isPropertySet X = (P.values X).isSome) ∧
    (∀ r, (P.withParent r).isPropertySet X = P.isPropertySet X) := by
  refine ⟨?_, ?_, ?_, ?_, ?_, rfl, fun r => rfl⟩
  · intro v hv; rw [Profile.property_eq, hv]; rfl
  · intro Q hnone hpar hinh
    rw [Profile.property_eq, hnone, hpar]
    simp [hinh]
  · intro hnone hpar; rw [Profile.property_eq, hnone, hpar]; rfl
  · intro hnone hninh
    rw [Profile.property_eq, hnone]
    cases hp : P.parentOf with
    | none => rfl
    | some q => simp [hninh]
  · intro hX r
    rw [Profile.property_eq, Profile.property_eq]
    have hv : (P.withParent r).values X = P.values X := rfl
    rw [hv]
    cases hval : P.values X with
    | some v => rfl
    | none =>
      have hni : canInheritProperty X = false := by
        rcases hX with h | h <;> subst h <;> rfl
      cases hpp : (P.withParent r).parentOf <;>
        cases hq : P.parentOf <;> simp [hni]

/-- Witness for C1 at a concrete profile. -/
theorem C1_property_resolution_witness :
    (Profile.empty.setProperty Property.Icon (QVariant.str "term")).property
        Property.Icon = QVariant.str "term" := by
  have h := (C1_property_resolution
    (Profile.empty.setProperty Property.Icon (QVariant.str "term"))
    Property.Icon).1
  exact h (QVariant.str "term") (by decide)

/-! ## The static property registry (Profile.cpp lines 64-126) -/

/-- The declared value type of a property (`QVariant::Type` in the table). -/
inductive QVType
  | string | stringList | intType | boolType | fontType | colorType
  deriving DecidableEq

/-- One row of `Profile::DefaultPropertyNames`. -/
structure PropertyInfo where
  property : Property
  name : String
  group : Option String
  type : QVType
  deriving DecidableEq

/-- `Profile::DefaultPropertyNames` (Profile.cpp lines 64-126), in table
order, including the short alias rows ("tabtitle", "colors"); the final
null-name sentinel row terminates the C array and is omitted here. -/
def defaultPropertyNames : List PropertyInfo :=
  [ ⟨Property.Path, "Path", none, QVType.string⟩
  , ⟨Property.Name, "Name", some "General", QVType.string⟩
  , ⟨Property.Title, "Title", none, QVType.string⟩
  , ⟨Property.Icon, "Icon", some "General", QVType.string⟩
  , ⟨Property.Command, "Command", none, QVType.string⟩
  , ⟨Property.Arguments, "Arguments", none, QVType.stringList⟩
  , ⟨Property.Environment, "Environment", some "General", QVType.stringList⟩
  , ⟨Property.Directory, "Directory", some "General", QVType.string⟩
  , ⟨Property.LocalTabTitleFormat, "LocalTabTitleFormat", some "General",
      QVType.string⟩
  , ⟨Property.LocalTabTitleFormat, "tabtitle", none, QVType.string⟩
  , ⟨Property.RemoteTabTitleFormat, "RemoteTabTitleFormat", some "General",
      QVType.string⟩
  , ⟨Property.ShowMenuBar, "ShowMenuBar", some "General", QVType.boolType⟩
  , ⟨Property.ShowTerminalSizeHint, "ShowTerminalSizeHint", some "General",
      QVType.boolType⟩
  , ⟨Property.SaveGeometryOnExit, "SaveGeometryOnExit", some "General",
      QVType.boolType⟩
  , ⟨Property.TabBarMode, "TabBarMode", some "General", QVType.intType⟩
  , ⟨Property.TabBarPosition, "TabBarPosition", some "General",
      QVType.intType⟩
  , ⟨Property.NewTabBehavior, "NewTabBehavior", some "General",
      QVType.intType⟩
  , ⟨Property.StartInCurrentSessionDir, "StartInCurrentSessionDir",
      some "General", QVType.boolType⟩
  , ⟨Property.ShowNewAndCloseTabButtons, "ShowNewAndCloseTabButtons",
      some "General", QVType.boolType⟩
  , ⟨Property.MenuIndex, "MenuIndex", some "General", QVType.string⟩
  , ⟨Property.SilenceSeconds, "SilenceSeconds", some "General",
      QVType.intType⟩
  , ⟨Property.Font, "Font", some "Appearance", QVType.fontType⟩
  , ⟨Property.ColorScheme, "ColorScheme", some "Appearance", QVType.string⟩
  , ⟨Property.ColorScheme, "colors", none, QVType.string⟩
  , ⟨Property.AntiAliasFonts, "AntiAliasFonts", some "Appearance",
      QVType.boolType⟩
  , ⟨Property.BoldIntense, "BoldIntense", some "Appearance", QVType.boolType⟩
  , ⟨Property.KeyBindings, "KeyBindings", some "Keyboard", QVType.string⟩
  , ⟨Property.HistoryMode, "HistoryMode", some "Scrolling", QVType.intType⟩
  , ⟨Property.HistorySize, "HistorySize", some "Scrolling", QVType.intType⟩
  , ⟨Property.ScrollBarPosition, "ScrollBarPosition", some "Scrolling",
      QVType.intType⟩
  , ⟨Property.BlinkingTextEnabled, "BlinkingTextEnabled",
      some "Terminal Features", QVType.boolType⟩
  , ⟨Property.FlowControlEnabled, "FlowControlEnabled",
      some "Terminal Features", QVType.boolType⟩
  , ⟨Property.AllowProgramsToResizeWindow, "AllowProgramsToResizeWindow",
      some "Terminal Features", QVType.boolType⟩
  , ⟨Property.BidiRenderingEnabled, "BidiRenderingEnabled",
      some "Terminal Features", QVType.boolType⟩
  , ⟨Property.CJKAmbiguousWide, "CJKAmbiguousWide", some "Terminal Features",
      QVType.boolType⟩
  , ⟨Property.BlinkingCursorEnabled, "BlinkingCursorEnabled",
      some "Terminal Features", QVType.boolType⟩
  , ⟨Property.UseCustomCursorColor, "UseCustomCursorColor",
      some "Cursor Options", QVType.boolType⟩
  , ⟨Property.CursorShape, "CursorShape", some "Cursor Options",
      QVType.intType⟩
  , ⟨Property.CustomCursorColor, "CustomCursorColor", some "Cursor Options",
      QVType.colorType⟩
  , ⟨Property.WordCharacters, "WordCharacters", some "Interaction Options",
      QVType.string⟩
  , ⟨Property.TripleClickMode, "TripleClickMode", some "Interaction Options",
      QVType.intType⟩
  , ⟨Property.UnderlineLinksEnabled, "UnderlineLinksEnabled",
      some "Interaction Options", QVType.boolType⟩
  , ⟨Property.DefaultEncoding, "DefaultEncoding", some "Encoding Options",
      QVType.string⟩
  ]

/-- `QString::toLower` restricted to ASCII, which covers every registered
property name and the inline-command names matched by `[a-zA-Z]+`. -/
def asciiToLower (c : Char) : Char :=
  if 'A' ≤ c && c ≤ 'Z' then Char.ofNat (c.toNat + 32) else c

/-- ASCII model of `QString::toLower`. -/
def lowerName (s : String) : String := String.mk (s.data.map asciiToLower)

/-- `Profile::lookupByName` (Profile.cpp lines 257-263).
`_propertyInfoByName[name.toLower()]` uses `QHash::operator[]`, which on a
missing key default-inserts a value-initialized `PropertyInfo`; its
`property` field is then `(Property)0`, i.e. `Path`.  The registered
lowercased names are pairwise distinct, so looking up the first matching
table row gives the same result as the hash. -/
def lookupByName (nm : String) : Property :=
  match defaultPropertyNames.find? (fun e => lowerName e.name = lowerName nm)
  with
  | some e => e.property
  | none => Property.Path

/-! ## ProfileCommandParser (Profile.cpp lines 481-511) -/

/-- A character matched by the regexp class `[a-zA-Z]`. -/
def isAsciiLetterChar (c : Char) : Bool :=
  ('a' ≤ c && c ≤ 'z') || ('A' ≤ c && c ≤ 'Z')

/-- Whether the regexp `([a-zA-Z]+)=([^;]+)` matches anchored at the head of
`cs`, and its two captures if so.  Backtracking over a shorter letter run
cannot help (a shorter run is followed by a letter, not by `=`), so the
first capture is the maximal letter run. -/
def regExpMatchHere (cs : List Char) : Option (String × String) :=
  let nm := cs.takeWhile isAsciiLetterChar
  if nm.isEmpty then none
  else
    match cs.drop nm.length with
    | '=' :: rest =>
      let v := rest.takeWhile (fun c => c ≠ ';')
      if v.isEmpty then none else some (String.mk nm, String.mk v)
    | _ => none

/-- `QRegExp::indexIn(input, offset) != -1` together with the captured
texts: the leftmost match of `([a-zA-Z]+)=([^;]+)` in `cs`. -/
def regExpScan : List Char → Option (String × String)
  | [] => none
  | c :: rest =>
    match regExpMatchHere (c :: rest) with
    | some r => some r
    | none => regExpScan rest

/-- The `while` loop of `ProfileCommandParser::parse`: on each match insert
`(lookupByName(capture1), capture2)`, then advance `offset` to one past the
next semicolon (`input.indexOf(';', offset) + 1`), stopping when there is no
further semicolon (`offset == 0`) or no further match. -/
def parseLoop (cs : List Char) : Nat → Nat → PropMap → PropMap
  | 0, _, changes => changes
  | fuel + 1, offset, changes =>
    match regExpScan (cs.drop offset) with
    | none => changes
    | some (nm, v) =>
      let changes1 := changes.insert (lookupByName nm) (QVariant.str v)
      match (cs.drop offset).findIdx? (fun c => c = ';') with
      | some k => parseLoop cs fuel (offset + k + 1) changes1
      | none => changes1

/-- `ProfileCommandParser::parse` (Profile.cpp lines 481-511).  The fuel
`cs.length + 1` dominates the loop's iteration count, because `offset`
strictly increases and stays bounded by the input length. -/
def ProfileCommandParser.parse (input : String) : PropMap :=
  parseLoop input.data (input.data.length + 1) 0 PropMap.empty

/-! ## Profile::clone (Profile.cpp lines 209-230) -/

/-- The body of the loop in `Profile::clone` for one table row: `Name` and
`Path` are skipped by the `switch`; any other property is copied from
`source` when `differentOnly` is unset or the receiver's resolved value
differs from the source's resolved value. -/
def cloneStep (source : Profile) (differentOnly : Bool) (t : Profile)
    (e : PropertyInfo) : Profile :=
  if e.property = Property.Name ∨ e.property = Property.Path then t
  else if ¬differentOnly ∨ t.property e.property ≠ source.property e.property
  then t.setProperty e.property (source.property e.property)
  else t

/-- `Profile::clone`: iterate the registry table over the receiver. -/
def Profile.clone (t source : Profile) (differentOnly : Bool) : Profile :=
  defaultPropertyNames.foldl (cloneStep source differentOnly) t

theorem cloneStep_parentOf (source : Profile) (d : Bool) (t : Profile)
    (e : PropertyInfo) : (cloneStep source d t e).parentOf = t.parentOf := by
  unfold cloneStep
  split
  · rfl
  · split <;> rfl

theorem cloneStep_values_other (source : Profile) (d : Bool) (t : Profile)
    (e : PropertyInfo) {X : Property} (h : e.property ≠ X) :
    (cloneStep source d t e).values X = t.values X := by
  unfold cloneStep
  split
  · rfl
  · split
    · exact PropMap.insert_other _ _ _ _ (Ne.symm h)
    · rfl

theorem cloneFold_parentOf (source : Profile) (d : Bool) :
    ∀ (l : List PropertyInfo) (t : Profile),
      (l.foldl (cloneStep source d) t).parentOf = t.parentOf := by
  intro l
  induction l with
  | nil => intro t; rfl
  | cons e l ih =>
    intro t
    simpa [List.foldl_cons, cloneStep_parentOf] using ih (cloneStep source d t e)

theorem cloneFold_values_notMem (source : Profile) (d : Bool) {X : Property} :
    ∀ (l : List PropertyInfo) (t : Profile),
      (∀ e ∈ l, e.property ≠ X) →
      (l.foldl (cloneStep source d) t).values X = t.values X := by
  intro l
  induction l with
  | nil => intro t _; rfl
  | cons e l ih =>
    intro t hl
    rw [List.foldl_cons, ih _ (fun f hf => hl f (List.mem_cons_of_mem _ hf))]
    exact cloneStep_values_other source d t e (hl e (List.mem_cons_self _ _))

theorem cloneStep_values_NamePath (source : Profile) (d : Bool) (t : Profile)
    (e : PropertyInfo) {X : Property}
    (hX : X = Property.Name ∨ X = Property.Path) :
    (cloneStep source d t e).values X = t.values X := by
  unfold cloneStep
  by_cases h : e.property = Property.Name ∨ e.property = Property.Path
  · rw [if_pos h]
  · rw [if_neg h]
    have hne : e.property ≠ X := by
      rcases hX with rfl | rfl
      · exact fun hc => h (Or.inl hc)
      · exact fun hc => h (Or.inr hc)
    split
    · exact PropMap.insert_other _ _ _ _ (Ne.symm hne)
    · rfl

theorem cloneFold_values_NamePath (source : Profile) (d : Bool) {X : Property}
    (hX : X = Property.Name ∨ X = Property.Path) :
    ∀ (l : List PropertyInfo) (t : Profile),
      (l.foldl (cloneStep source d) t).values X = t.values X := by
  intro l
  induction l with
  | nil => intro t; rfl
  | cons e l ih =>
    intro t
    rw [List.foldl_cons, ih (cloneStep source d t e)]
    exact cloneStep_values_NamePath source d t e hX

theorem cloneStep_property_same (source : Profile) (t : Profile)
    (e : PropertyInfo) (hn : e.property ≠ Property.Name)
    (hp : e.property ≠ Property.Path) :
    (cloneStep source true t e).property e.property
      = source.property e.property := by
  unfold cloneStep
  rw [if_neg (by simp [hn, hp])]
  split
  · exact Profile.property_setProperty_same _ _ _
  · rename_i hcond
    push_neg at hcond
    exact hcond.2

theorem cloneFold_property_mem (source : Profile) {X : Property}
    (hn : X ≠ Property.Name) (hp : X ≠ Property.Path) :
    ∀ (l : List PropertyInfo) (t : Profile),
      (∃ e ∈ l, e.property = X) →
      (l.foldl (cloneStep source true) t).property X = source.property X := by
  intro l
  induction l with
  | nil => rintro t ⟨e, he, _⟩; cases he
  | cons e l ih =>
    intro t hmem
    rw [List.foldl_cons]
    by_cases htail : ∃ f ∈ l, f.property = X
    · exact ih _ htail
    · rcases hmem with ⟨f, hf, hfx⟩
      rcases List.mem_cons.mp hf with rfl | hfl
      · have hall : ∀ g ∈ l, g.property ≠ X := by
          intro g hg hgx; exact htail ⟨g, hg, hgx⟩
        have hframe := cloneFold_values_notMem source true l
          (cloneStep source true t f) hall
        have hpar := cloneFold_parentOf source true l
          (cloneStep source true t f)
        rw [Profile.property_congr X hframe hpar]
        subst hfx
        exact cloneStep_property_same source t f hn hp
      · exact absurd ⟨f, hfl, hfx⟩ htail

/-- Every registered property other than `Name` and `Path` occurs in the
table. -/
theorem mem_defaultPropertyNames (X : Property) (hn : X ≠ Property.Name)
    (hp : X ≠ Property.Path) : ∃ e ∈ defaultPropertyNames, e.property = X := by
  revert hn hp; cases X <;> decide

/-- C7: `clone(source, differentOnly := true)` never copies `Name` or `Path`
(the receiver's local entries for them are exactly as before), and
afterwards every other registered property resolves on the receiver to the
same value as on `source`. -/
theorem C7_clone_differentOnly (target source : Profile) :
    ((target.clone source true).values Property.Name
        = target.values Property.Name) ∧
    ((target.clone source true).values Property.Path
        = target.values Property.Path) ∧
    (∀ X, X ≠ Property.Name → X ≠ Property.Path →
      (target.clone source true).property X = source.property X) := by
  refine ⟨?_, ?_, ?_⟩
  · exact cloneFold_values_NamePath source true (Or.inl rfl)
      defaultPropertyNames target
  · exact cloneFold_values_NamePath source true (Or.inr rfl)
      defaultPropertyNames target
  · intro X hn hp
    exact cloneFold_property_mem source hn hp defaultPropertyNames target
      (mem_defaultPropertyNames X hn hp)

/-- Witness for C7 at a concrete pair of profiles and a concrete property. -/
theorem C7_clone_differentOnly_witness :
    (Profile.empty.clone
        (Profile.empty.setProperty Property.Icon (QVariant.str "k"))
        true).property Property.Icon
      = (Profile.empty.setProperty Property.Icon
          (QVariant.str "k")).property Property.Icon :=
  (C7_clone_differentOnly Profile.empty
    (Profile.empty.setProperty Property.Icon (QVariant.str "k"))).2.2
    Property.Icon (by decide) (by decide)

/-- C2: evaluating `ProfileCommandParser::parse` at the claim's own example
input.  The recognized segments map as expected, but the segment with the
unrecognized name `BadKey` is NOT dropped: `lookupByName` yields
`(Property)0 = Path` for it (QHash `operator[]` default-constructs the
missing entry), so the result additionally contains `Path ↦ "x"` — three
entries, not the two the claim asserts. -/
theorem C2_parse_unknown_name_inserts_path :
    ∀ x, ProfileCommandParser.parse "Icon=term;BadKey=x;Directory=/tmp" x =
      (((PropMap.empty.insert Property.Icon (QVariant.str "term")).insert
          Property.Path (QVariant.str "x")).insert
          Property.Directory (QVariant.str "/tmp")) x := by decide

/-! ## ProfileGroup (Profile.h lines 498-554, Profile.cpp lines 513-554) -/

/-- A `ProfileGroup`: the `Profile` base part plus the `_profiles` member
list (in `addProfile` order).  Members are modelled as plain profiles with
value semantics; the operations proved about groups only read the members
or update them uniformly. -/
structure ProfileGroup where
  base : Profile
  members : List Profile

/-- `ProfileGroup::ProfileGroup(parent)` (Profile.h lines 540-544): an empty
profile that is hidden by default, with no members yet. -/
def ProfileGroup.new : ProfileGroup :=
  ⟨Profile.mk PropMap.empty none true, []⟩

/-- `ProfileGroup::addProfile` (Profile.h lines 509-510). -/
def ProfileGroup.addProfile (g : ProfileGroup) (p : Profile) : ProfileGroup :=
  { g with members := g.members ++ [p] }

/-- The inner `for` loop of `ProfileGroup::updateValues` (Profile.cpp lines
530-541): `value` starts as the null variant; each member's resolved value
replaces `value` while `value` is still null; once non-null, any differing
member value turns the result into null (with `break`). -/
def updateScan (x : Property) : QVariant → List Profile → QVariant
  | value, [] => value
  | value, m :: rest =>
    if value.isNull then updateScan x (m.property x) rest
    else if value ≠ m.property x then QVariant.null
    else updateScan x value rest

/-- `ProfileGroup::updateValues` (Profile.cpp lines 513-545): iterate the
registry table; with more than one member the non-inheritable properties
(`Name`, `Path`) are skipped; otherwise the scan result is stored into the
group's own hash via the non-virtual `Profile::setProperty`. -/
def ProfileGroup.updateValues (g : ProfileGroup) : ProfileGroup :=
  { g with
    base := defaultPropertyNames.foldl
      (fun b e =>
        if 1 < g.members.length ∧ ¬ canInheritProperty e.property then b
        else b.setProperty e.property
          (updateScan e.property QVariant.null g.members))
      g.base }

/-- `ProfileGroup::setProperty` (Profile.cpp lines 546-554): a no-op when
the group has more than one member and the property cannot be inherited;
otherwise the value is stored on the group itself and fanned out to every
member. -/
def ProfileGroup.setProperty (g : ProfileGroup) (x : Property) (v : QVariant) :
    ProfileGroup :=
  if 1 < g.members.length ∧ ¬ canInheritProperty x then g
  else
    { base := g.base.setProperty x v,
      members := g.members.map (fun m => m.setProperty x v) }

/-- Declarative description of the scan: leading members whose resolved
value is null are skipped; the first non-null value is the candidate; the
result is the candidate if every later member resolves to it, else null. -/
def groupAggregate (x : Property) (ms : List Profile) : QVariant :=
  match ms.dropWhile (fun m => (m.property x).isNull) with
  | [] => QVariant.null
  | m :: rest =>
    if ∀ m2 ∈ rest, m2.property x = m.property x then m.property x
    else QVariant.null

theorem updateScan_nonNull (x : Property) (c : QVariant)
    (hc : c.isNull = false) :
    ∀ ms : List Profile,
      updateScan x c ms =
        if ∀ m ∈ ms, m.property x = c then c else QVariant.null := by
  intro ms
  induction ms with
  | nil => simp [updateScan]
  | cons m rest ih =>
    rw [updateScan]
    rw [hc]
    simp only [Bool.false_eq_true, if_false]
    by_cases hm : m.property x = c
    · rw [if_neg (by simp [hm]), ih]
      by_cases hrest : ∀ m2 ∈ rest, m2.property x = c
      · rw [if_pos hrest, if_pos (by
          intro m2 hm2
          rcases List.mem_cons.mp hm2 with rfl | h2
          · exact hm
          · exact hrest m2 h2)]
      · rw [if_neg hrest, if_neg (by
          intro hall
          exact hrest (fun m2 hm2 => hall m2 (List.mem_cons_of_mem _ hm2)))]
    · rw [if_pos (fun h => hm h.symm), if_neg (by
        intro hall
        exact hm (hall m (List.mem_cons_self _ _)))]

theorem updateScan_eq_groupAggregate (x : Property) (ms : List Profile) :
    updateScan x QVariant.null ms = groupAggregate x ms := by
  induction ms with
  | nil => rfl
  | cons m rest ih =>
    rw [updateScan]
    simp only [QVariant.isNull, if_true]
    by_cases hm : (m.property x).isNull = true
    · have hmv : m.property x = QVariant.null := by
        cases hv : m.property x <;> rw [hv] at hm <;> simp [QVariant.isNull] at hm ⊢
      rw [hmv]
      rw [ih]
      unfold groupAggregate
      rw [List.dropWhile_cons, if_pos (by rw [hmv]; rfl)]
    · have hm' : (m.property x).isNull = false := by
        cases h : (m.property x).isNull
        · rfl
        · exact absurd h hm
      have hdw : List.dropWhile (fun m => (m.property x).isNull) (m :: rest)
          = m :: rest := by
        rw [List.dropWhile_cons, if_neg hm]
      rw [updateScan_nonNull x (m.property x) hm' rest]
      unfold groupAggregate
      rw [hdw]

/-- Which table rows modify the group hash entry for `X` is controlled by
this guard (true = row skipped). -/
theorem updateFold_values_skipped (g : ProfileGroup) {X : Property}
    (hskip : 1 < g.members.length ∧ ¬ canInheritProperty X) :
    ∀ (l : List PropertyInfo) (b : Profile),
      (l.foldl
        (fun b e =>
          if 1 < g.members.length ∧ ¬ canInheritProperty e.property then b
          else b.setProperty e.property
            (updateScan e.property QVariant.null g.members)) b).values X
      = b.values X := by
  intro l
  induction l with
  | nil => intro b; rfl
  | cons e l ih =>
    intro b
    rw [List.foldl_cons, ih]
    by_cases he : 1 < g.members.length ∧ ¬ canInheritProperty e.property
    · rw [if_pos he]
    · rw [if_neg he]
      refine PropMap.insert_other _ _ _ _ ?_
      intro hXe
      subst hXe
      exact he hskip

theorem updateFold_values_notMem (g : ProfileGroup) {X : Property} :
    ∀ (l : List PropertyInfo) (b : Profile), (∀ e ∈ l, e.property ≠ X) →
      (l.foldl
        (fun b e =>
          if 1 < g.members.length ∧ ¬ canInheritProperty e.property then b
          else b.setProperty e.property
            (updateScan e.property QVariant.null g.members)) b).values X
      = b.values X := by
  intro l
  induction l with
  | nil => intro b _; rfl
  | cons e l ih =>
    intro b hl
    rw [List.foldl_cons, ih _ (fun f hf => hl f (List.mem_cons_of_mem _ hf))]
    by_cases he : 1 < g.members.length ∧ ¬ canInheritProperty e.property
    · rw [if_pos he]
    · rw [if_neg he]
      exact PropMap.insert_other _ _ _ _
        (Ne.symm (hl e (List.mem_cons_self _ _)))

theorem updateFold_values_mem (g : ProfileGroup) {X : Property}
    (hskip : ¬ (1 < g.members.length ∧ ¬ canInheritProperty X)) :
    ∀ (l : List PropertyInfo) (b : Profile), (∃ e ∈ l, e.property = X) →
      (l.foldl
        (fun b e =>
          if 1 < g.members.length ∧ ¬ canInheritProperty e.property then b
          else b.setProperty e.property
            (updateScan e.property QVariant.null g.members)) b).values X
      = some (updateScan X QVariant.null g.members) := by
  intro l
  induction l with
  | nil => rintro b ⟨e, he, _⟩; cases he
  | cons e l ih =>
    intro b hmem
    rw [List.foldl_cons]
    by_cases htail : ∃ f ∈ l, f.property = X
    · exact ih _ htail
    · rcases hmem with ⟨f, hf, hfx⟩
      rcases List.mem_cons.mp hf with rfl | hfl
      · subst hfx
        rw [updateFold_values_notMem g l _
          (fun g2 hg2 hgx => htail ⟨g2, hg2, hgx⟩)]
        rw [if_neg hskip]
        exact PropMap.insert_same _ _ _
      · exact absurd ⟨f, hfl, hfx⟩ htail

/-- Every property occurs in the registry table. -/
theorem mem_defaultPropertyNames_all (X : Property) :
    ∃ e ∈ defaultPropertyNames, e.property = X := by
  cases X <;> decide

/-- The concrete two-member group of the claim: members `M1(A=1, B=2)` and
`M2(A=1, B=3)` with `A := Icon`, `B := Directory`. -/
def c4Group : ProfileGroup :=
  (ProfileGroup.new.addProfile
    ((Profile.empty.setProperty Property.Icon (QVariant.str "1")).setProperty
      Property.Directory (QVariant.str "2"))).addProfile
    ((Profile.empty.setProperty Property.Icon (QVariant.str "1")).setProperty
      Property.Directory (QVariant.str "3"))

/-- C4 counterexample: a two-member group whose first member leaves `Icon`
unset (resolved value null) while the second member sets it to `"x"`.  The
members' resolved values differ, so the claim requires the group to store
the null value for `Icon`; `updateValues` instead stores `"x"`, because the
scan replaces a still-null candidate by the next member's value. -/
theorem C4_counterexample :
    ((Profile.empty.property Property.Icon
        ≠ (Profile.empty.setProperty Property.Icon
            (QVariant.str "x")).property Property.Icon) ∧
     ((ProfileGroup.new.addProfile Profile.empty).addProfile
        (Profile.empty.setProperty Property.Icon
          (QVariant.str "x"))).updateValues.base.values Property.Icon
       = some (QVariant.str "x")) := by decide

/-- C4 (amended): with more than one member, for every inheritable property
the stored group value is the scan result: leading members with null
resolved values are skipped, the first non-null value is the candidate, and
any later differing member forces null; `Name` and `Path` stay untouched.
With at most one member every property is stored this way (the group acts
like an ordinary profile).  On the concrete example `M1(A=1,B=2)`,
`M2(A=1,B=3)` the group resolves `A` to `1` and `B` to null. -/
theorem C4_updateValues (g : ProfileGroup) :
    (1 < g.members.length →
      (∀ X, canInheritProperty X →
        g.updateValues.base.values X = some (groupAggregate X g.members)) ∧
      g.updateValues.base.values Property.Name
        = g.base.values Property.Name ∧
      g.updateValues.base.values Property.Path
        = g.base.values Property.Path) ∧
    (g.members.length ≤ 1 →
      ∀ X, g.updateValues.base.values X
        = some (groupAggregate X g.members)) ∧
    (c4Group.updateValues.base.property Property.Icon = QVariant.str "1" ∧
     c4Group.updateValues.base.property Property.Directory = QVariant.null)
    := by
  refine ⟨?_, ?_, by decide⟩
  · intro hlen
    refine ⟨?_, ?_, ?_⟩
    · intro X hX
      rw [← updateScan_eq_groupAggregate]
      exact updateFold_values_mem g (by simp [hX]) defaultPropertyNames
        g.base (mem_defaultPropertyNames_all X)
    · exact updateFold_values_skipped g ⟨hlen, by decide⟩
        defaultPropertyNames g.base
    · exact updateFold_values_skipped g ⟨hlen, by decide⟩
        defaultPropertyNames g.base
  · intro hlen X
    rw [← updateScan_eq_groupAggregate]
    refine updateFold_values_mem g ?_ defaultPropertyNames g.base
      (mem_defaultPropertyNames_all X)
    intro hc
    exact absurd hc.1 (by omega)

/-- Witness for C4 at the concrete claim example. -/
theorem C4_updateValues_witness :
    1 < c4Group.members.length ∧
    c4Group.updateValues.base.values Property.Icon
      = some (groupAggregate Property.Icon c4Group.members) :=
  ⟨by decide,
   ((C4_updateValues c4Group).1 (by decide)).1 Property.Icon (by decide)⟩

/-- C8: `ProfileGroup::setProperty` on a group with more than one member is
a no-op for the non-inheritable `Name` and `Path` (group and members are
unchanged); for every inheritable property it stores the value and fans the
write out so that every member's local entry becomes the value; with exactly
one member nothing is no-opped — the group behaves like an ordinary
profile. -/
theorem C8_group_setProperty (g : ProfileGroup) (X : Property) (v : QVariant) :
    (1 < g.members.length → (X = Property.Name ∨ X = Property.Path) →
      g.setProperty X v = g) ∧
    (canInheritProperty X →
      (g.setProperty X v).members
          = g.members.map (fun m => m.setProperty X v) ∧
      (∀ m ∈ (g.setProperty X v).members, m.values X = some v) ∧
      (g.setProperty X v).base = g.base.setProperty X v) ∧
    (g.members.length = 1 →
      (g.setProperty X v).base = g.base.setProperty X v ∧
      (g.setProperty X v).members
        = g.members.map (fun m => m.setProperty X v) ∧
      (∀ m ∈ (g.setProperty X v).members, m.values X = some v)) := by
  refine ⟨?_, ?_, ?_⟩
  · intro hlen hX
    unfold ProfileGroup.setProperty
    rw [if_pos ⟨hlen, by rcases hX with rfl | rfl <;> decide⟩]
  · intro hX
    unfold ProfileGroup.setProperty
    rw [if_neg (by simp [hX])]
    refine ⟨rfl, ?_, rfl⟩
    intro m hm
    rcases List.mem_map.mp hm with ⟨m0, _, rfl⟩
    exact PropMap.insert_same _ _ _
  · intro hlen
    unfold ProfileGroup.setProperty
    rw [if_neg (by omega)]
    refine ⟨rfl, rfl, ?_⟩
    intro m hm
    rcases List.mem_map.mp hm with ⟨m0, _, rfl⟩
    exact PropMap.insert_same _ _ _

/-- Witness for C8 at a concrete two-member group: a `Name` write is a
no-op, an `Icon` write reaches both members. -/
theorem C8_group_setProperty_witness :
    ((ProfileGroup.new.addProfile Profile.empty).addProfile
        Profile.empty).setProperty Property.Name (QVariant.str "n")
      = (ProfileGroup.new.addProfile Profile.empty).addProfile Profile.empty
    ∧ ∀ m ∈ (((ProfileGroup.new.addProfile Profile.empty).addProfile
        Profile.empty).setProperty Property.Icon (QVariant.str "i")).members,
        m.values Property.Icon = some (QVariant.str "i") :=
  ⟨(C8_group_setProperty
      ((ProfileGroup.new.addProfile Profile.empty).addProfile Profile.empty)
      Property.Name (QVariant.str "n")).1 (by decide) (Or.inl rfl),
   ((C8_group_setProperty
      ((ProfileGroup.new.addProfile Profile.empty).addProfile Profile.empty)
      Property.Icon (QVariant.str "i")).2.1 (by decide)).2.1⟩

/-! ## KConfig model and the KDE4 reader/writer
(Profile.cpp lines 298-420) -/

/-- In-memory contents of a `KConfig`: (group name, key name) ↦ stored
value.  Storage fidelity of `KConfig`'s textual serialization is abstracted:
`writeEntry` stores the variant and `readEntry` returns it (both sides use
the registry's declared type, so the text round trip is the identity). -/
def KConfig : Type := String × String → Option QVariant

/-- A config with no entries. -/
def KConfig.empty : KConfig := fun _ => none

/-- `KConfigGroup::hasKey`. -/
def KConfig.hasKey (c : KConfig) (grp key : String) : Bool :=
  (c (grp, key)).isSome

/-- `KConfigGroup::readEntry` (with a null default). -/
def KConfig.readEntry (c : KConfig) (grp key : String) : QVariant :=
  (c (grp, key)).getD QVariant.null

/-- `KConfigGroup::writeEntry`. -/
def KConfig.writeEntry (c : KConfig) (grp key : String) (v : QVariant) :
    KConfig :=
  fun k => if k = (grp, key) then some v else c k

/-- `QVariant::value<QStringList>()`. -/
def toQStringList : QVariant → List String
  | QVariant.strList l => l
  | _ => []

/-- Splits a character list into maximal runs of non-space characters.  The
fuel (called with the list length) dominates the recursion depth, since
each step consumes at least one character. -/
def shellTokensAux : Nat → List Char → List (List Char)
  | 0, _ => []
  | _ + 1, [] => []
  | fuel + 1, c :: rest =>
    if c = ' ' then shellTokensAux fuel rest
    else
      (c :: rest).takeWhile (fun c2 => c2 ≠ ' ')
        :: shellTokensAux fuel ((c :: rest).dropWhile (fun c2 => c2 ≠ ' '))

/-- Modelled from the spec: the `ShellCommand` class (ShellCommand.h/cpp) is
not among the provided sources.  Per spec §4.3 and §8, a full command line
is split by conventional shell tokenization into a program and an argument
list (example: `Exec=ssh user@host` splits into `Command="ssh"`,
`Arguments=["user@host"]`), and the writer merges `Command` and `Arguments`
back into a single command line.  Quoting is modelled for whitespace-free
tokens: split on spaces. -/
def shellSplit (s : String) : List String :=
  (shellTokensAux s.data.length s.data).map String.mk

/-- Modelled from the spec: `ShellCommand::command()` — the first token. -/
def shellCommandOf (full : String) : String := (shellSplit full).headD ""

/-- Modelled from the spec: `ShellCommand::arguments()` — the tokens after
the program. -/
def shellArgumentsOf (full : String) : List String := (shellSplit full).tail

/-- Modelled from the spec: `ShellCommand::fullCommand()` — program and
arguments joined by spaces. -/
def shellFullCommand (cmd : String) (args : List String) : String :=
  String.intercalate " " (cmd :: args)

/-- One iteration of the loop in `KDE4ProfileWriter::writeProperties`:
rows without a declared group are skipped; otherwise the row's key is
written iff the property is locally set. -/
def wpStep (profile : Profile) (c : KConfig) (e : PropertyInfo) : KConfig :=
  match e.group with
  | none => c
  | some grp =>
    if profile.isPropertySet e.property then
      c.writeEntry grp e.name (profile.property e.property)
    else c

/-- `KDE4ProfileWriter::writeProperties` (Profile.cpp lines 317-341). -/
def writeProperties (config : KConfig) (profile : Profile) : KConfig :=
  defaultPropertyNames.foldl (wpStep profile) config

/-- The two `General` entries `KDE4ProfileWriter::writeProfile` emits
before calling `writeProperties`: the `Parent` key when a parent exists,
and the merged `Command` command line when `Command` or `Arguments` is
locally set. -/
def writeProfileHeader (profile : Profile) : KConfig :=
  let c1 : KConfig :=
    match profile.parentOf with
    | some par =>
      KConfig.empty.writeEntry "General" "Parent"
        (QVariant.str (toQString (par.property Property.Path)))
    | none => KConfig.empty
  if profile.isPropertySet Property.Command
      ∨ profile.isPropertySet Property.Arguments then
    c1.writeEntry "General" "Command"
      (QVariant.str (shellFullCommand
        (toQString (profile.property Property.Command))
        (toQStringList (profile.property Property.Arguments))))
  else c1

/-- `KDE4ProfileWriter::writeProfile` (Profile.cpp lines 342-362) producing
the written config contents: the header entries, then the grouped
properties. -/
def writeProfile (profile : Profile) : KConfig :=
  writeProperties (writeProfileHeader profile) profile

/-- One iteration of the loop in `KDE4ProfileReader::readProperties`: rows
without a declared group are skipped; otherwise the property is set iff the
row's key is present. -/
def rpStep (cfg : KConfig) (p : Profile) (e : PropertyInfo) : Profile :=
  match e.group with
  | none => p
  | some grp =>
    if cfg.hasKey grp e.name then
      p.setProperty e.property (cfg.readEntry grp e.name)
    else p

/-- `KDE4ProfileReader::readProperties` (Profile.cpp lines 369-395). -/
def readProperties (cfg : KConfig) (profile : Profile) : Profile :=
  defaultPropertyNames.foldl (rpStep cfg) profile

/-- The `Command` special case of `KDE4ProfileReader::readProfile`: when a
`General/Command` key exists, split it into the `Command` and `Arguments`
properties of the profile being read. -/
def readCommandInto (cfg : KConfig) (profile : Profile) : Profile :=
  if cfg.hasKey "General" "Command" then
    (profile.setProperty Property.Command
      (QVariant.str
        (shellCommandOf (toQString (cfg.readEntry "General" "Command"))))
    ).setProperty Property.Arguments
      (QVariant.strList
        (shellArgumentsOf (toQString (cfg.readEntry "General" "Command"))))
  else profile

/-- The body of `KDE4ProfileReader::readProfile` (Profile.cpp lines
397-420) after the existence check: the populated profile together with the
`Parent` key out parameter (initially empty). -/
def readProfileConfig (cfg : KConfig) (profile : Profile) :
    Profile × String :=
  (readProperties cfg (readCommandInto cfg profile),
   if cfg.hasKey "General" "Parent" then
     toQString (cfg.readEntry "General" "Parent")
   else "")

/-- The key written by a table row, if any. -/
def rowWritesKey (e : PropertyInfo) (k : String × String) : Prop :=
  match e.group with
  | some grp => k = (grp, e.name)
  | none => False

instance (e : PropertyInfo) (k : String × String) :
    Decidable (rowWritesKey e k) := by
  unfold rowWritesKey
  cases e.group <;> infer_instance

theorem wpStep_notWrites (p : Profile) (c : KConfig) (e : PropertyInfo)
    {k : String × String} (hnw : ¬ rowWritesKey e k) :
    wpStep p c e k = c k := by
  unfold rowWritesKey at hnw
  cases hg : e.group with
  | none => simp only [wpStep, hg]
  | some grp =>
    simp only [hg] at hnw
    simp only [wpStep, hg]
    split
    · simp only [KConfig.writeEntry]
      exact if_neg hnw
    · rfl

theorem wpStep_writes (p : Profile) (c : KConfig) (e : PropertyInfo)
    {grp : String} (hg : e.group = some grp) :
    wpStep p c e (grp, e.name)
      = if p.isPropertySet e.property then some (p.property e.property)
        else c (grp, e.name) := by
  simp only [wpStep, hg]
  split
  · simp [KConfig.writeEntry]
  · rfl

theorem writeProperties_notMem (p : Profile) {k : String × String} :
    ∀ (l : List PropertyInfo) (cfg : KConfig),
      (∀ e ∈ l, ¬ rowWritesKey e k) →
      (l.foldl (wpStep p) cfg) k = cfg k := by
  intro l
  induction l with
  | nil => intro cfg _; rfl
  | cons e l ih =>
    intro cfg hl
    rw [List.foldl_cons, ih _ (fun f hf => hl f (List.mem_cons_of_mem _ hf))]
    exact wpStep_notWrites p cfg e (hl e (List.mem_cons_self _ _))

theorem writeProperties_mem (p : Profile) {e : PropertyInfo} {grp : String}
    (hg : e.group = some grp) :
    ∀ (l : List PropertyInfo) (cfg : KConfig), e ∈ l →
      (∀ f ∈ l, rowWritesKey f (grp, e.name) → f = e) →
      (l.foldl (wpStep p) cfg) (grp, e.name)
      = if p.isPropertySet e.property then some (p.property e.property)
        else cfg (grp, e.name) := by
  intro l
  induction l with
  | nil => intro cfg he _; cases he
  | cons f l ih =>
    intro cfg hel huniq
    rw [List.foldl_cons]
    by_cases hetail : e ∈ l
    · rw [ih _ hetail (fun f2 hf2 hw => huniq f2 (List.mem_cons_of_mem _ hf2) hw)]
      by_cases hset : p.isPropertySet e.property = true
      · rw [if_pos hset, if_pos hset]
      · rw [if_neg hset, if_neg hset]
        by_cases hw : rowWritesKey f (grp, e.name)
        · have hfe : f = e := huniq f (List.mem_cons_self _ _) hw
          subst hfe
          rw [wpStep_writes p cfg f hg, if_neg hset]
        · exact wpStep_notWrites p cfg f hw
    · rcases List.mem_cons.mp hel with rfl | h2
      · rw [writeProperties_notMem p l _ (by
          intro f2 hf2 hw
          exact hetail ((huniq f2 (List.mem_cons_of_mem _ hf2) hw) ▸ hf2))]
        exact wpStep_writes p cfg e hg
      · exact absurd h2 hetail

/-- Which table rows store into property `X` when read. -/
def rowSetsProp (e : PropertyInfo) (X : Property) : Prop :=
  e.group.isSome = true ∧ e.property = X

instance (e : PropertyInfo) (X : Property) : Decidable (rowSetsProp e X) := by
  unfold rowSetsProp
  infer_instance

theorem rpStep_values_notSets (cfg : KConfig) (p : Profile)
    (e : PropertyInfo) {X : Property} (hns : ¬ rowSetsProp e X) :
    (rpStep cfg p e).values X = p.values X := by
  unfold rowSetsProp at hns
  cases hg : e.group with
  | none => simp only [rpStep, hg]
  | some grp =>
    simp only [rpStep, hg]
    have hne : e.property ≠ X := by
      intro hc
      exact hns ⟨by rw [hg]; rfl, hc⟩
    split
    · exact PropMap.insert_other _ _ _ _ (Ne.symm hne)
    · rfl

theorem rpStep_values_sets (cfg : KConfig) (p : Profile) (e : PropertyInfo)
    {grp : String} (hg : e.group = some grp) :
    (rpStep cfg p e).values e.property
      = if cfg.hasKey grp e.name then some (cfg.readEntry grp e.name)
        else p.values e.property := by
  simp only [rpStep, hg]
  split
  · exact PropMap.insert_same _ _ _
  · rfl

theorem readProperties_notMem (cfg : KConfig) {X : Property} :
    ∀ (l : List PropertyInfo) (p : Profile),
      (∀ e ∈ l, ¬ rowSetsProp e X) →
      (l.foldl (rpStep cfg) p).values X = p.values X := by
  intro l
  induction l with
  | nil => intro p _; rfl
  | cons e l ih =>
    intro p hl
    rw [List.foldl_cons, ih _ (fun f hf => hl f (List.mem_cons_of_mem _ hf))]
    exact rpStep_values_notSets cfg p e (hl e (List.mem_cons_self _ _))

theorem readProperties_mem (cfg : KConfig) {e : PropertyInfo} {grp : String}
    (hg : e.group = some grp) :
    ∀ (l : List PropertyInfo) (p : Profile), e ∈ l →
      (∀ f ∈ l, rowSetsProp f e.property → f = e) →
      (l.foldl (rpStep cfg) p).values e.property
      = if cfg.hasKey grp e.name then some (cfg.readEntry grp e.name)
        else p.values e.property := by
  intro l
  induction l with
  | nil => intro p he _; cases he
  | cons f l ih =>
    intro p hel huniq
    rw [List.foldl_cons]
    by_cases hetail : e ∈ l
    · rw [ih _ hetail (fun f2 hf2 hw => huniq f2 (List.mem_cons_of_mem _ hf2) hw)]
      by_cases hkey : cfg.hasKey grp e.name = true
      · rw [if_pos hkey, if_pos hkey]
      · rw [if_neg hkey, if_neg hkey]
        by_cases hw : rowSetsProp f e.property
        · have hfe : f = e := huniq f (List.mem_cons_self _ _) hw
          subst hfe
          rw [rpStep_values_sets cfg p f hg, if_neg hkey]
        · exact rpStep_values_notSets cfg p f hw
    · rcases List.mem_cons.mp hel with rfl | h2
      · rw [readProperties_notMem cfg l _ (by
          intro f2 hf2 hw
          exact hetail ((huniq f2 (List.mem_cons_of_mem _ hf2) hw) ▸ hf2))]
        exact rpStep_values_sets cfg p e hg
      · exact absurd h2 hetail

/-- No table row writes the reserved `General/Parent` or `General/Command`
keys (those names belong to group-less rows only). -/
theorem table_not_writes_reserved :
    ∀ e ∈ defaultPropertyNames,
      ¬ rowWritesKey e ("General", "Parent")
      ∧ ¬ rowWritesKey e ("General", "Command") := by decide

/-- The keys written by grouped table rows are pairwise distinct. -/
theorem table_writer_key_unique :
    ∀ e ∈ defaultPropertyNames, ∀ g, e.group = some g →
      ∀ f ∈ defaultPropertyNames, rowWritesKey f (g, e.name) → f = e := by
  decide

/-- Each property has at most one grouped table row. -/
theorem table_prop_row_unique :
    ∀ e ∈ defaultPropertyNames, e.group.isSome = true →
      ∀ f ∈ defaultPropertyNames, rowSetsProp f e.property → f = e := by
  decide

/-- A property with a grouped row is none of the four group-less properties
(`Command`, `Arguments`, `Path`, `Title`). -/
theorem table_grouped_not_special :
    ∀ e ∈ defaultPropertyNames, e.group.isSome = true →
      e.property ≠ Property.Command ∧ e.property ≠ Property.Arguments ∧
      e.property ≠ Property.Path ∧ e.property ≠ Property.Title := by decide

/-- No table row reads into `Path` or `Title` (their rows are group-less). -/
theorem table_not_sets_path_title :
    ∀ e ∈ defaultPropertyNames,
      ¬ rowSetsProp e Property.Path ∧ ¬ rowSetsProp e Property.Title := by
  decide

theorem writeProfileHeader_other (p : Profile) {k : String × String}
    (h1 : k ≠ ("General", "Parent")) (h2 : k ≠ ("General", "Command")) :
    writeProfileHeader p k = none := by
  simp only [writeProfileHeader]
  split <;> cases hpar : p.parentOf <;>
    simp [KConfig.writeEntry, KConfig.empty, h1, h2, hpar]

theorem writeProfileHeader_command (p : Profile) :
    writeProfileHeader p ("General", "Command")
      = if p.isPropertySet Property.Command
            ∨ p.isPropertySet Property.Arguments
        then some (QVariant.str (shellFullCommand
          (toQString (p.property Property.Command))
          (toQStringList (p.property Property.Arguments))))
        else none := by
  simp only [writeProfileHeader]
  split
  · simp [KConfig.writeEntry]
  · cases hpar : p.parentOf <;>
      simp [KConfig.writeEntry, KConfig.empty, hpar]

theorem writeProfile_grouped_key (p : Profile) {e : PropertyInfo}
    {grp : String} (he : e ∈ defaultPropertyNames)
    (hg : e.group = some grp) :
    writeProfile p (grp, e.name)
      = if p.isPropertySet e.property then some (p.property e.property)
        else none := by
  have hres := table_not_writes_reserved e he
  simp only [rowWritesKey, hg] at hres
  unfold writeProfile writeProperties
  rw [writeProperties_mem p hg defaultPropertyNames _ he
    (table_writer_key_unique e he grp hg)]
  rw [writeProfileHeader_other p (fun hc => hres.1 hc.symm)
    (fun hc => hres.2 hc.symm)]

theorem Profile.property_of_values {p : Profile} {X : Property}
    {v : QVariant} (h : p.values X = some v) : p.property X = v := by
  rw [Profile.property_eq, h]
  rfl

theorem readCommandInto_values_other (cfg : KConfig) (p : Profile)
    {X : Property} (h1 : X ≠ Property.Command) (h2 : X ≠ Property.Arguments) :
    (readCommandInto cfg p).values X = p.values X := by
  unfold readCommandInto
  split
  · rw [Profile.values_setProperty, PropMap.insert_other _ _ _ _ h2,
      Profile.values_setProperty, PropMap.insert_other _ _ _ _ h1]
  · rfl

/-- The round trip of the claim: write a profile with the current-format
writer, read the written representation back into a fresh profile with the
current-format reader. -/
def roundTrip (p : Profile) : Profile :=
  (readProfileConfig (writeProfile p) Profile.empty).1

/-- C6 counterexample: `Command` has no declared persistence group, yet a
profile with only `Command = "ls"` set locally round trips to a profile
where `Command` IS set (and `Arguments` too): `writeProfile` emits the
merged `General/Command` line whenever `Command` or `Arguments` is set, and
the reader splits it back.  This contradicts "a property with no declared
group is never written by the writer (dropped by the round trip)". -/
theorem C6_counterexample :
    (∀ e ∈ defaultPropertyNames,
      e.property = Property.Command → e.group = none) ∧
    (roundTrip (Profile.empty.setProperty Property.Command
        (QVariant.str "ls"))).values Property.Command
      = some (QVariant.str "ls") ∧
    (roundTrip (Profile.empty.setProperty Property.Command
        (QVariant.str "ls"))).values Property.Arguments
      = some (QVariant.strList []) := by decide

/-- C6 (amended): for every property with a declared persistence group the
round trip preserves exactly the explicitly-set properties with equal
values, and such a property is written iff it is locally set (inherited
values are never serialized).  However `Command` and `Arguments` — although
group-less — are not dropped: the merged `General/Command` key is written
iff either is locally set, and reading it back sets both.  The remaining
group-less properties (`Path`, `Title`) are dropped by the round trip. -/
theorem C6_round_trip (p : Profile) :
    (∀ X, (∃ e ∈ defaultPropertyNames,
        e.property = X ∧ e.group.isSome = true) →
      (roundTrip p).values X = p.values X) ∧
    (∀ e ∈ defaultPropertyNames, ∀ grp, e.group = some grp →
      writeProfile p (grp, e.name)
        = if p.isPropertySet e.property then some (p.property e.property)
          else none) ∧
    ((writeProfile p).hasKey "General" "Command"
        = (p.isPropertySet Property.Command
            || p.isPropertySet Property.Arguments)) ∧
    ((roundTrip p).values Property.Path = none ∧
     (roundTrip p).values Property.Title = none) := by
  refine ⟨?_, ?_, ?_, ?_, ?_⟩
  · rintro X ⟨e, he, rfl, hgs⟩
    cases hg : e.group with
    | none => rw [hg] at hgs; cases hgs
    | some grp =>
      have hspec := table_grouped_not_special e he hgs
      show (readProperties (writeProfile p)
        (readCommandInto (writeProfile p) Profile.empty)).values e.property
        = p.values e.property
      unfold readProperties
      rw [readProperties_mem (writeProfile p) hg defaultPropertyNames _ he
        (table_prop_row_unique e he hgs)]
      rw [readCommandInto_values_other _ _ hspec.1 hspec.2.1]
      have hkey := writeProfile_grouped_key p he hg
      by_cases hset : p.isPropertySet e.property = true
      · rw [if_pos hset] at hkey
        have hsome : (p.values e.property).isSome = true := hset
        cases hv : p.values e.property with
        | none => rw [hv] at hsome; cases hsome
        | some v =>
          rw [if_pos (by unfold KConfig.hasKey; rw [hkey]; rfl)]
          unfold KConfig.readEntry
          rw [hkey, Option.getD_some, Profile.property_of_values hv]
      · rw [if_neg hset] at hkey
        have hkf : (writeProfile p).hasKey grp e.name = false := by
          unfold KConfig.hasKey
          rw [hkey]
          rfl
        rw [if_neg (by rw [hkf]; exact Bool.false_ne_true)]
        cases hv : p.values e.property with
        | none => rfl
        | some v =>
          exfalso
          apply hset
          unfold Profile.isPropertySet
          rw [hv]
          rfl
  · intro e he grp hg
    exact writeProfile_grouped_key p he hg
  · have hnw : ∀ e ∈ defaultPropertyNames,
        ¬ rowWritesKey e ("General", "Command") :=
      fun e he => (table_not_writes_reserved e he).2
    unfold writeProfile writeProperties
    unfold KConfig.hasKey
    rw [writeProperties_notMem p defaultPropertyNames _ hnw,
      writeProfileHeader_command p]
    by_cases hc : p.isPropertySet Property.Command = true
    · simp [hc]
    · by_cases ha : p.isPropertySet Property.Arguments = true
      · simp [hc, ha]
      · simp [hc, ha]
  · show (readProperties (writeProfile p)
      (readCommandInto (writeProfile p) Profile.empty)).values Property.Path
        = none
    unfold readProperties
    rw [readProperties_notMem (writeProfile p) defaultPropertyNames _
      (fun e he => (table_not_sets_path_title e he).1)]
    rw [readCommandInto_values_other _ _ (by decide) (by decide)]
    rfl
  · show (readProperties (writeProfile p)
      (readCommandInto (writeProfile p) Profile.empty)).values Property.Title
        = none
    unfold readProperties
    rw [readProperties_notMem (writeProfile p) defaultPropertyNames _
      (fun e he => (table_not_sets_path_title e he).2)]
    rw [readCommandInto_values_other _ _ (by decide) (by decide)]
    rfl

/-- Witness for C6 at a concrete profile with `Icon` set. -/
theorem C6_round_trip_witness :
    (roundTrip (Profile.empty.setProperty Property.Icon
        (QVariant.str "a"))).values Property.Icon
      = (Profile.empty.setProperty Property.Icon
          (QVariant.str "a")).values Property.Icon :=
  (C6_round_trip
    (Profile.empty.setProperty Property.Icon (QVariant.str "a"))).1
    Property.Icon (by decide)

/-! ## SessionManager state (SessionManager.cpp) -/

/-- `Profile::setHidden` (Profile.cpp line 235). -/
def Profile.withHidden (p : Profile) (h : Bool) : Profile :=
  Profile.mk p.values p.parentOf h

/-- `SessionManager::ShortcutData`: the lazily resolved profile reference
and the stored profile path. -/
structure ShortcutData where
  profileKey : Option Nat
  profilePath : String

/-- The filesystem operations `SessionManager::deleteProfile` performs:
existence check and removal (whether `QFile::remove` would succeed). -/
structure FSModel where
  fileExists : String → Bool
  removeOk : String → Bool

/-- `QFile::remove` on success: the file no longer exists. -/
def FSModel.removeFile (fs : FSModel) (path : String) : FSModel :=
  { fs with fileExists := fun p2 => if p2 = path then false else fs.fileExists p2 }

/-- The profile-management state of a `SessionManager`.  Shared
`Profile::Ptr` objects are modelled by heap keys, so that pointer identity
(QSet/QMap membership) and shared mutation (`setHidden`) are explicit. -/
structure SMState where
  heap : Nat → Profile
  profiles : List Nat
  favorites : List Nat
  shortcuts : List (String × ShortcutData)
  defaultProfile : Nat

/-- The resolved path string of a heap profile. -/
def SMState.pathOf (st : SMState) (k : Nat) : String :=
  toQString ((st.heap k).property Property.Path)

/-- `SessionManager::addProfile` (SessionManager.cpp lines 553-561): the
first profile ever added becomes the default; the profile is inserted into
the `_profiles` set. -/
def SMState.addProfile (st : SMState) (k : Nat) : SMState :=
  let st1 := if st.profiles.isEmpty then { st with defaultProfile := k }
             else st
  if k ∈ st1.profiles then st1
  else { st1 with profiles := st1.profiles ++ [k] }

/-- `SessionManager::setFavorite` (SessionManager.cpp lines 627-642). -/
def SMState.setFavorite (st : SMState) (k : Nat) (fav : Bool) : SMState :=
  let st1 := if k ∈ st.profiles then st else st.addProfile k
  if fav ∧ k ∉ st1.favorites then
    { st1 with favorites := st1.favorites ++ [k] }
  else if ¬ fav ∧ k ∈ st1.favorites then
    { st1 with favorites := st1.favorites.filter (fun k2 => k2 ≠ k) }
  else st1

/-- `SessionManager::shortcut` (SessionManager.cpp lines 814-826): the
first map entry whose resolved reference or stored path matches; the empty
key sequence when none does. -/
def SMState.shortcutOf (st : SMState) (k : Nat) : String :=
  match st.shortcuts.find?
    (fun e => e.2.profileKey = some k ∨ e.2.profilePath = st.pathOf k) with
  | some e => e.1
  | none => ""

/-- `SessionManager::setShortcut` (SessionManager.cpp lines 681-698): drop
the profile's existing shortcut entry, then (only for a non-empty key
sequence) insert the new association. -/
def SMState.setShortcut (st : SMState) (k : Nat) (seq : String) : SMState :=
  let existing := st.shortcutOf k
  let st1 := { st with
    shortcuts := st.shortcuts.filter (fun e => e.1 ≠ existing) }
  if seq = "" then st1
  else { st1 with
    shortcuts := (st1.shortcuts.filter (fun e => e.1 ≠ seq))
      ++ [(seq, ⟨some k, st1.pathOf k⟩)] }

/-- `SessionManager::setDefaultProfile` (SessionManager.cpp lines 602-619);
the workaround write into `konsolerc` is external state outside this
model. -/
def SMState.setDefaultProfile (st : SMState) (k : Nat) : SMState :=
  { st with defaultProfile := k }

/-- The mutation part of `SessionManager::deleteProfile` (SessionManager.cpp
lines 581-598), reached only after the file removal (if any) succeeded:
drop from favorites, drop the shortcut, drop from the profile set, mark the
profile hidden, and re-pick the default profile if the deleted one was the
default. -/
def deleteProfileRest (st : SMState) (k : Nat) (wasDefault : Bool) :
    SMState :=
  let st1 := st.setFavorite k false
  let st2 := st1.setShortcut k ""
  let st3 := { st2 with profiles := st2.profiles.filter (fun k2 => k2 ≠ k) }
  let st4 := { st3 with heap := fun k2 =>
    if k2 = k then (st3.heap k).withHidden true else st3.heap k2 }
  if wasDefault then st4.setDefaultProfile (st4.profiles.headD 0) else st4

/-- `SessionManager::deleteProfile` (SessionManager.cpp lines 563-601): if
the profile has a path and the file exists but cannot be removed, log and
return `false` before any state mutation; otherwise remove the file (when
present) and apply the mutations above, returning `true`. -/
def deleteProfile (st : SMState) (fs : FSModel) (k : Nat) :
    Bool × SMState × FSModel :=
  let wasDefault := k = st.defaultProfile
  if (st.heap k).isPropertySet Property.Path = true
      ∧ fs.fileExists (st.pathOf k) = true then
    if fs.removeOk (st.pathOf k) = false then
      (false, st, fs)
    else
      (true, deleteProfileRest st k (decide wasDefault),
        fs.removeFile (st.pathOf k))
  else
    (true, deleteProfileRest st k (decide wasDefault), fs)

/-- C10: `deleteProfile` is atomic on failure: when the profile's on-disk
file exists but cannot be removed, it returns `false` and the manager state
and filesystem are exactly as before — the profile set, favorites,
shortcuts, hidden flags (heap) and default profile are all untouched. -/
theorem C10_deleteProfile_atomic_failure (st : SMState) (fs : FSModel)
    (k : Nat)
    (hset : (st.heap k).isPropertySet Property.Path = true)
    (hex : fs.fileExists (st.pathOf k) = true)
    (hrm : fs.removeOk (st.pathOf k) = false) :
    deleteProfile st fs k = (false, st, fs) := by
  unfold deleteProfile
  rw [if_pos ⟨hset, hex⟩, if_pos hrm]

/-- A concrete failing-removal scenario for the C10 witness. -/
def c10State : SMState :=
  { heap := fun _ => Profile.empty.setProperty Property.Path
      (QVariant.str "/ro/a.profile")
  , profiles := [0]
  , favorites := [0]
  , shortcuts := [("Ctrl+1", ⟨some 0, "/ro/a.profile"⟩)]
  , defaultProfile := 0 }

/-- The filesystem for the C10 witness: the file exists, removal fails. -/
def c10FS : FSModel :=
  { fileExists := fun p2 => p2 = "/ro/a.profile"
  , removeOk := fun _ => false }

/-- Witness for C10 at the concrete scenario. -/
theorem C10_deleteProfile_atomic_failure_witness :
    deleteProfile c10State c10FS 0 = (false, c10State, c10FS) :=
  C10_deleteProfile_atomic_failure c10State c10FS 0 rfl (by decide) (by decide)

/-! ## SessionManager::changeProfile (SessionManager.cpp lines 402-445) -/

/-- Observable side effects of `changeProfile` on one profile: the
re-application to the profile's live sessions, the `profileChanged`
notification, and the disk write of `saveProfile` (recording the profile as
written, still with its pre-save path, and the destination path). -/
inductive CPEvent
  | applied (p : Profile)
  | notified (p : Profile)
  | saved (p : Profile) (path : String)

/-- `QString::startsWith`, on character data. -/
def strStartsWith (s pre : String) : Bool :=
  s.data.take pre.data.length = pre.data

/-- `KDE4ProfileWriter::getPath` (Profile.cpp lines 298-316):
reuse the profile's path when it is set and lies under the writable profile
directory (`saveLocation`), else synthesize `<name>.profile` there. -/
def writerGetPath (saveLocation : String) (p : Profile) : String :=
  if p.isPropertySet Property.Path = true
      ∧ strStartsWith (toQString (p.property Property.Path)) saveLocation
        = true then
    toQString (p.property Property.Path)
  else
    saveLocation ++ toQString (p.property Property.Name) ++ ".profile"

/-- `SessionManager::changeProfile` for a non-group profile: insert the
changes, restrict persistence to profiles with a non-empty name, apply to
sessions, notify, and (when persistent and not hidden) save to disk and
store the new path. -/
def changeProfilePlain (saveLocation : String) (p : Profile)
    (changes : List (Property × QVariant)) (persistent : Bool) :
    Profile × List CPEvent :=
  let p1 := changes.foldl (fun q c => q.setProperty c.1 c.2) p
  let persistent1 := persistent
    && !(toQString (p1.property Property.Name)).data.isEmpty
  if persistent1 && !p1.hiddenFlag then
    (p1.setProperty Property.Path
        (QVariant.str (writerGetPath saveLocation p1)),
     [CPEvent.applied p1, CPEvent.notified p1,
      CPEvent.saved p1 (writerGetPath saveLocation p1)])
  else
    (p1, [CPEvent.applied p1, CPEvent.notified p1])

/-- `SessionManager::changeProfile` when the profile is a `ProfileGroup`:
the insertion loop goes through the group's virtual `setProperty` (storing
on the group and fanning out), persistence is restricted by the group's
name, and then the function recurses into each member and returns —
the group itself is neither applied, notified nor saved.  Members are
modelled as plain profiles. -/
def changeProfileGroup (saveLocation : String) (g : ProfileGroup)
    (changes : List (Property × QVariant)) (persistent : Bool) :
    ProfileGroup × List CPEvent :=
  let g1 := changes.foldl (fun h c => h.setProperty c.1 c.2) g
  let persistent1 := persistent
    && !(toQString (g1.base.property Property.Name)).data.isEmpty
  let results := g1.members.map
    (fun m => changeProfilePlain saveLocation m changes persistent1)
  ({ g1 with members := results.map Prod.fst },
   (results.map Prod.snd).flatten)

/-- Recognizes `profileChanged` notifications among the events. -/
def isNotifiedEvent : CPEvent → Bool
  | CPEvent.notified _ => true
  | _ => false

theorem foldl_setProperty_values_notMem (p : Profile) {x : Property} :
    ∀ (changes : List (Property × QVariant)),
      (∀ c ∈ changes, c.1 ≠ x) →
      (changes.foldl (fun q c => q.setProperty c.1 c.2) p).values x
        = p.values x := by
  intro changes
  induction changes generalizing p with
  | nil => intro _; rfl
  | cons c rest ih =>
    intro hl
    rw [List.foldl_cons, ih _ (fun c2 h2 => hl c2 (List.mem_cons_of_mem _ h2))]
    exact PropMap.insert_other _ _ _ _
      (Ne.symm (hl c (List.mem_cons_self _ _)))

theorem foldl_setProperty_values_mem (p : Profile) :
    ∀ (changes : List (Property × QVariant)),
      (changes.map Prod.fst).Nodup →
      ∀ x v, (x, v) ∈ changes →
      (changes.foldl (fun q c => q.setProperty c.1 c.2) p).values x
        = some v := by
  intro changes
  induction changes generalizing p with
  | nil => intro _ x v hv; cases hv
  | cons c rest ih =>
    intro hnd x v hv
    have hnd2 : (rest.map Prod.fst).Nodup := (List.nodup_cons.mp hnd).2
    rw [List.foldl_cons]
    rcases List.mem_cons.mp hv with rfl | hrest
    · have hnm : ∀ c2 ∈ rest, c2.1 ≠ x := by
        intro c2 h2 hc2
        exact (List.nodup_cons.mp hnd).1 (List.mem_map.mpr ⟨c2, h2, hc2⟩)
      rw [foldl_setProperty_values_notMem _ rest hnm]
      exact PropMap.insert_same _ _ _
    · exact ih _ hnd2 x v hrest

/-- `ProfileGroup::setProperty` never changes the member count. -/
theorem groupSetProperty_members_length (g : ProfileGroup) (x : Property)
    (v : QVariant) :
    (g.setProperty x v).members.length = g.members.length := by
  unfold ProfileGroup.setProperty
  split
  · rfl
  · exact List.length_map _ _

theorem foldl_groupSetProperty_members_length (g : ProfileGroup) :
    ∀ (changes : List (Property × QVariant)),
      (changes.foldl (fun h c => h.setProperty c.1 c.2) g).members.length
        = g.members.length := by
  intro changes
  induction changes generalizing g with
  | nil => rfl
  | cons c rest ih =>
    rw [List.foldl_cons, ih (g.setProperty c.1 c.2),
      groupSetProperty_members_length]

theorem groupSetProperty_base_values_other (g : ProfileGroup)
    {x y : Property} (v : QVariant) (h : y ≠ x) :
    (g.setProperty x v).base.values y = g.base.values y := by
  unfold ProfileGroup.setProperty
  split
  · rfl
  · exact PropMap.insert_other _ _ _ _ h

theorem foldl_groupSetProperty_base_notMem (g : ProfileGroup) {x : Property} :
    ∀ (changes : List (Property × QVariant)),
      (∀ c ∈ changes, c.1 ≠ x) →
      (changes.foldl (fun h c => h.setProperty c.1 c.2) g).base.values x
        = g.base.values x := by
  intro changes
  induction changes generalizing g with
  | nil => intro _; rfl
  | cons c rest ih =>
    intro hl
    rw [List.foldl_cons, ih _ (fun c2 h2 => hl c2 (List.mem_cons_of_mem _ h2))]
    exact groupSetProperty_base_values_other g _
      (Ne.symm (hl c (List.mem_cons_self _ _)))

theorem foldl_groupSetProperty_base_mem (g : ProfileGroup) :
    ∀ (changes : List (Property × QVariant)),
      (changes.map Prod.fst).Nodup →
      ∀ x v, (x, v) ∈ changes → canInheritProperty x = true →
      (changes.foldl (fun h c => h.setProperty c.1 c.2) g).base.values x
        = some v := by
  intro changes
  induction changes generalizing g with
  | nil => intro _ x v hv; cases hv
  | cons c rest ih =>
    intro hnd x v hv hinh
    have hnd2 : (rest.map Prod.fst).Nodup := (List.nodup_cons.mp hnd).2
    rw [List.foldl_cons]
    rcases List.mem_cons.mp hv with rfl | hrest
    · have hnm : ∀ c2 ∈ rest, c2.1 ≠ x := by
        intro c2 h2 hc2
        exact (List.nodup_cons.mp hnd).1 (List.mem_map.mpr ⟨c2, h2, hc2⟩)
      rw [foldl_groupSetProperty_base_notMem _ rest hnm]
      unfold ProfileGroup.setProperty
      rw [if_neg (by simp [hinh])]
      exact PropMap.insert_same _ _ _
    · exact ih _ hnd2 x v hrest hinh

theorem changeProfilePlain_values (saveLocation : String) (p : Profile)
    (changes : List (Property × QVariant)) (persistent : Bool)
    (hnd : (changes.map Prod.fst).Nodup) {x : Property} {v : QVariant}
    (hv : (x, v) ∈ changes) (hx : x ≠ Property.Path) :
    (changeProfilePlain saveLocation p changes persistent).1.values x
      = some v := by
  simp only [changeProfilePlain]
  split
  · rw [Profile.values_setProperty, PropMap.insert_other _ _ _ _ hx]
    exact foldl_setProperty_values_mem p changes hnd x v hv
  · exact foldl_setProperty_values_mem p changes hnd x v hv

theorem changeProfilePlain_notified_count (saveLocation : String)
    (p : Profile) (changes : List (Property × QVariant)) (persistent : Bool) :
    (changeProfilePlain saveLocation p changes persistent).2.countP
      isNotifiedEvent = 1 := by
  simp only [changeProfilePlain]
  split <;> simp [List.countP_cons, isNotifiedEvent]

/-- C9 counterexample: a two-member group, a single `Icon` change, not
persistent.  Before the call the group's own storage has no `Icon` entry;
after the call it does — the insertion loop dispatched to the group's
virtual `setProperty`, which stores on the group object itself.  This
contradicts "the group object's own local property storage is
unchanged". -/
theorem C9_counterexample :
    ((ProfileGroup.new.addProfile Profile.empty).addProfile
        Profile.empty).base.values Property.Icon = none ∧
    (changeProfileGroup "/save/"
        ((ProfileGroup.new.addProfile Profile.empty).addProfile
          Profile.empty)
        [(Property.Icon, QVariant.str "x")] false).1.base.values
        Property.Icon
      = some (QVariant.str "x") := by decide

/-- C9 (amended): `changeProfile` on a group with more than one member
recurses into the members: afterwards every member's local storage contains
each change (for every changed property other than `Path`, which the
persistent-save step may overwrite), and exactly one `profileChanged`
notification (with its own potential disk write) is emitted per member —
none for the group.  However, the group object's own local storage is NOT
unchanged: the initial insertion loop goes through the group's virtual
`setProperty`, which also stores every inheritable changed property on the
group object itself. -/
theorem C9_changeProfile_on_group (saveLocation : String) (g : ProfileGroup)
    (changes : List (Property × QVariant)) (persistent : Bool)
    (hnd : (changes.map Prod.fst).Nodup) :
    (∀ x v, (x, v) ∈ changes → canInheritProperty x = true →
      (changeProfileGroup saveLocation g changes persistent).1.base.values x
        = some v) ∧
    (∀ x v, (x, v) ∈ changes → x ≠ Property.Path →
      ∀ m ∈ (changeProfileGroup saveLocation g changes persistent).1.members,
        m.values x = some v) ∧
    ((changeProfileGroup saveLocation g changes persistent).2.countP
        isNotifiedEvent = g.members.length) := by
  refine ⟨?_, ?_, ?_⟩
  · intro x v hv hinh
    exact foldl_groupSetProperty_base_mem g changes hnd x v hv hinh
  · intro x v hv hx m hm
    unfold changeProfileGroup at hm
    simp only [List.map_map, List.mem_map] at hm
    rcases hm with ⟨m0, _, rfl⟩
    exact changeProfilePlain_values saveLocation m0 changes _ hnd hv hx
  · unfold changeProfileGroup
    simp only [List.map_map]
    rw [List.countP_flatten]
    rw [← foldl_groupSetProperty_members_length g changes]
    generalize (changes.foldl (fun h c => h.setProperty c.1 c.2) g).members
      = ms
    induction ms with
    | nil => rfl
    | cons m rest ih =>
      simp only [List.map_cons, List.sum_cons, Function.comp]
      rw [changeProfilePlain_notified_count, ih]
      simp [List.length_cons]
      omega

/-- Witness for C9 at a concrete two-member group and one `Icon` change. -/
theorem C9_changeProfile_on_group_witness :
    (changeProfileGroup "/save/"
        ((ProfileGroup.new.addProfile Profile.empty).addProfile
          Profile.empty)
        [(Property.Icon, QVariant.str "x")] false).1.base.values
        Property.Icon
      = some (QVariant.str "x") :=
  (C9_changeProfile_on_group "/save/"
    ((ProfileGroup.new.addProfile Profile.empty).addProfile Profile.empty)
    [(Property.Icon, QVariant.str "x")] false (by decide)).1
    Property.Icon (QVariant.str "x") (List.mem_singleton.mpr rfl) (by decide)

/-! ## Qt 4 qStableSort (QtAlgorithms) and SessionManager::sortProfiles
(SessionManager.cpp lines 54-72 and 216-260)

The Qt 4 algorithms operate in place through random-access iterators; they
are modelled here on lists with explicit index ranges `[b, e)`.  The merge
recursions carry a fuel argument that dominates their depth (each recursive
call works on a strictly shorter range). -/

section QtSort

variable {α : Type} [Inhabited α]

/-- `qSwap(*i, *j)` through list indices (out-of-range indices leave the
list unchanged; all uses are in range). -/
def qtSwap (l : List α) (i j : Nat) : List α :=
  match l.get? i, l.get? j with
  | some x, some y => (l.set i y).set j x
  | _, _ => l

/-- Qt 4 `qReverse` on the range `[b, e)`: repeatedly swaps the two ends
moving inwards, which reverses the segment. -/
def qtReverse (l : List α) (b e : Nat) : List α :=
  l.take b ++ (((l.drop b).take (e - b)).reverse ++ l.drop (max b e))

/-- Qt 4 `qRotate(begin, middle, end)`: three segment reversals. -/
def qtRotate (l : List α) (b m e : Nat) : List α :=
  qtReverse (qtReverse (qtReverse l b m) m e) b e

/-- Qt 4 `qLowerBound` binary-search loop: `b` is `begin`, `n` the number of
remaining elements. -/
def qtLowerBoundAux (lt : α → α → Bool) (l : List α) (v : α) :
    Nat → Nat → Nat
  | b, 0 => b
  | b, n + 1 =>
    let half := (n + 1) / 2
    let middle := b + half
    if lt (l.getD middle default) v then
      qtLowerBoundAux lt l v (middle + 1) (n + 1 - (half + 1))
    else
      qtLowerBoundAux lt l v b half
  termination_by _b n => n
  decreasing_by all_goals omega

/-- Qt 4 `qUpperBound` binary-search loop. -/
def qtUpperBoundAux (lt : α → α → Bool) (l : List α) (v : α) :
    Nat → Nat → Nat
  | b, 0 => b
  | b, n + 1 =>
    let half := (n + 1) / 2
    let middle := b + half
    if lt v (l.getD middle default) then
      qtUpperBoundAux lt l v b half
    else
      qtUpperBoundAux lt l v (middle + 1) (n + 1 - (half + 1))
  termination_by _b n => n
  decreasing_by all_goals omega

/-- Qt 4 `qMerge(begin, pivot, end)`: the rotation-based in-place merge.
A two-element range is merged by a single conditional swap — note that with
a NON-STRICT comparator (`lessThan(y, x)` true on ties) equal elements get
swapped. -/
def qtMerge (lt : α → α → Bool) :
    Nat → List α → Nat → Nat → Nat → List α
  | 0, l, _, _, _ => l
  | fuel + 1, l, b, pivot, e =>
    let len1 := pivot - b
    let len2 := e - pivot
    if len1 = 0 ∨ len2 = 0 then l
    else if len1 + len2 = 2 then
      if lt (l.getD (b + 1) default) (l.getD b default) then qtSwap l b (b + 1)
      else l
    else
      let cut :=
        if len2 < len1 then
          let len1Half := len1 / 2
          let fc := b + len1Half
          let sc := qtLowerBoundAux lt l (l.getD fc default) pivot len2
          (fc, sc, sc - pivot)
        else
          let len2Half := len2 / 2
          let sc := pivot + len2Half
          let fc := qtUpperBoundAux lt l (l.getD sc default) b len1
          (fc, sc, len2Half)
      let l2 := qtRotate l cut.1 pivot cut.2.1
      let newPivot := cut.1 + cut.2.2
      let l3 := qtMerge lt fuel l2 b cut.1 newPivot
      qtMerge lt fuel l3 newPivot cut.2.1 e

/-- Qt 4 `qStableSortHelper`: sort both halves, then merge. -/
def qtStableSortHelper (lt : α → α → Bool) :
    Nat → List α → Nat → Nat → List α
  | 0, l, _, _ => l
  | fuel + 1, l, b, e =>
    let span := e - b
    if span < 2 then l
    else
      let middle := b + span / 2
      let l1 := qtStableSortHelper lt fuel l b middle
      let l2 := qtStableSortHelper lt fuel l1 middle e
      qtMerge lt (e - b + 1) l2 b middle e

/-- Qt 4 `qStableSort` over a whole container. -/
def qtStableSort (lt : α → α → Bool) (l : List α) : List α :=
  qtStableSortHelper lt (l.length + 1) l 0 l.length

theorem qtSwap_cons (c : α) (l : List α) (i j : Nat) :
    qtSwap (c :: l) (i + 1) (j + 1) = c :: qtSwap l i j := by
  unfold qtSwap
  rw [List.get?_cons_succ, List.get?_cons_succ]
  cases h1 : l.get? i <;> cases h2 : l.get? j <;> simp [List.set]

theorem qtSwap_adjacent_perm (l : List α) (b : Nat) :
    (qtSwap l b (b + 1)).Perm l := by
  induction l generalizing b with
  | nil => simp [qtSwap]
  | cons c l ih =>
    cases b with
    | zero =>
      cases l with
      | nil => simp [qtSwap]
      | cons d l2 =>
        simp only [qtSwap, List.get?_cons_zero, List.get?_cons_succ,
          List.set]
        exact List.Perm.swap c d l2
    | succ b2 =>
      have heq : qtSwap (c :: l) (b2 + 1) (b2 + 1 + 1)
          = c :: qtSwap l b2 (b2 + 1) := qtSwap_cons c l b2 (b2 + 1)
      rw [heq]
      exact List.Perm.cons c (ih b2)

theorem qtReverse_perm (l : List α) (b e : Nat) :
    (qtReverse l b e).Perm l := by
  unfold qtReverse
  by_cases hbe : b ≤ e
  · rw [max_eq_right hbe]
    have h3 : l.drop e = (l.drop b).drop (e - b) := by
      rw [List.drop_drop]
      congr 1
      omega
    have h2 : (l.drop b).take (e - b) ++ l.drop e = l.drop b := by
      rw [h3, List.take_append_drop]
    have step1 : (l.take b
        ++ (((l.drop b).take (e - b)).reverse ++ l.drop e)).Perm
        (l.take b ++ ((l.drop b).take (e - b) ++ l.drop e)) :=
      List.Perm.append_left _
        (List.Perm.append_right _ (List.reverse_perm _))
    have step3 : (l.take b
        ++ ((l.drop b).take (e - b) ++ l.drop e)).Perm l := by
      rw [h2, List.take_append_drop]
    exact step1.trans step3
  · have hz : e - b = 0 := by omega
    have hm : max b e = b := by omega
    rw [hm, hz]
    simp

theorem qtRotate_perm (l : List α) (b m e : Nat) :
    (qtRotate l b m e).Perm l := by
  unfold qtRotate
  exact ((qtReverse_perm _ b e).trans ((qtReverse_perm _ m e).trans
    (qtReverse_perm l b m)))

theorem qtMerge_perm (lt : α → α → Bool) :
    ∀ (fuel : Nat) (l : List α) (b pivot e : Nat),
      (qtMerge lt fuel l b pivot e).Perm l := by
  intro fuel
  induction fuel with
  | zero => intro l b pivot e; exact List.Perm.refl l
  | succ fuel ih =>
    intro l b pivot e
    show (qtMerge lt (fuel + 1) l b pivot e).Perm l
    simp only [qtMerge]
    split
    · exact List.Perm.refl l
    · split
      · split
        · exact qtSwap_adjacent_perm l b
        · exact List.Perm.refl l
      · exact ((ih _ _ _ _).trans ((ih _ _ _ _).trans
          (qtRotate_perm l _ _ _)))

theorem qtStableSortHelper_perm (lt : α → α → Bool) :
    ∀ (fuel : Nat) (l : List α) (b e : Nat),
      (qtStableSortHelper lt fuel l b e).Perm l := by
  intro fuel
  induction fuel with
  | zero => intro l b e; exact List.Perm.refl l
  | succ fuel ih =>
    intro l b e
    show (qtStableSortHelper lt (fuel + 1) l b e).Perm l
    simp only [qtStableSortHelper]
    split
    · exact List.Perm.refl l
    · exact ((qtMerge_perm lt _ _ _ _ _).trans
        ((ih _ _ _).trans (ih _ _ _)))

theorem qtStableSort_perm (lt : α → α → Bool) (l : List α) :
    (qtStableSort lt l).Perm l :=
  qtStableSortHelper_perm lt (l.length + 1) l 0 l.length

/-- The two-element behavior of `qtStableSort`: a single conditional swap,
which REVERSES the pair whenever `lt q p` holds — in particular on ties of
a non-strict comparator. -/
theorem qtStableSort_pair (lt : α → α → Bool) (p q : α) :
    qtStableSort lt [p, q] = if lt q p then [q, p] else [p, q] := by
  have hlen : ([p, q] : List α).length = 2 := rfl
  unfold qtStableSort
  rw [hlen]
  exact rfl

end QtSort

/-- `QString::toInt(&ok, 10)` model: an optional sign followed by at least
one decimal digit parses to that integer; anything else fails. -/
def digitsVal (cs : List Char) : Option Nat :=
  if cs ≠ [] ∧ cs.all (fun c => c.isDigit) then
    some (cs.foldl (fun acc c => acc * 10 + (c.toNat - '0'.toNat)) 0)
  else none

def qstringToInt (s : String) : Option Int :=
  match s.data with
  | '-' :: rest => (digitsVal rest).map (fun n => -(n : Int))
  | '+' :: rest => (digitsVal rest).map (fun n => (n : Int))
  | cs => (digitsVal cs).map (fun n => (n : Int))

/-- `Profile::menuIndexAsInt` (Profile.cpp lines 275-283): the `MenuIndex`
string parsed as a base-10 integer, 0 when parsing fails. -/
def Profile.menuIndexAsInt (p : Profile) : Int :=
  (qstringToInt (toQString (p.property Property.MenuIndex))).getD 0

/-- `profileIndexLessThan` (SessionManager.cpp lines 54-57) — note the
non-strict `<=`. -/
def profileIndexLessThan (p1 p2 : Profile) : Bool :=
  decide (p1.menuIndexAsInt ≤ p2.menuIndexAsInt)

/-- Model of `QString::localeAwareCompare` as code-point lexicographic
comparison (the locale-dependent collation is abstracted; only its
sign is used). -/
def localeAwareCompare (a b : String) : Int :=
  if a < b then -1 else if a = b then 0 else 1

/-- `profileNameLessThan` (SessionManager.cpp lines 59-62) — note the
non-strict `<= 0`. -/
def profileNameLessThan (p1 p2 : Profile) : Bool :=
  decide (localeAwareCompare (toQString (p1.property Property.Name))
    (toQString (p2.property Property.Name)) ≤ 0)

/-- One iteration of the partition loop of `sortProfiles`: drop a profile
whose path is the fallback's, else append it to the lacking-index list
(`menuIndexAsInt() == 0`, first component) or the having-index list
(second component). -/
def sortPartitionStep (fallbackPath : String)
    (acc : List Profile × List Profile) (p : Profile) :
    List Profile × List Profile :=
  if toQString (p.property Property.Path) = fallbackPath then acc
  else if p.menuIndexAsInt = 0 then (acc.1 ++ [p], acc.2)
  else (acc.1, acc.2 ++ [p])

/-- The partition loop of `sortProfiles`. -/
def sortPartition (fallbackPath : String) (list : List Profile) :
    List Profile × List Profile :=
  list.foldl (sortPartitionStep fallbackPath) ([], [])

/-- `SessionManager::sortProfiles` (SessionManager.cpp lines 216-260):
partition, `qStableSort` each block with the comparators above, renumber
the indexed block `1..k`, renumber the unindexed block continuing at
`k+1`, and concatenate. -/
def sortProfiles (fallbackPath : String) (list : List Profile) :
    List Profile :=
  let parts := sortPartition fallbackPath list
  let havingIndices := qtStableSort profileIndexLessThan parts.2
  let lackingIndices := qtStableSort profileNameLessThan parts.1
  let having2 := havingIndices.enum.map
    (fun ip => ip.2.setProperty Property.MenuIndex
      (QVariant.str (toString (ip.1 + 1))))
  let lacking2 := lackingIndices.enum.map
    (fun jp => jp.2.setProperty Property.MenuIndex
      (QVariant.str (toString (jp.1 + 1 + havingIndices.length))))
  having2 ++ lacking2

theorem mem_of_mem_enumFrom {α : Type} :
    ∀ (l : List α) (n : Nat) (ip : Nat × α), ip ∈ l.enumFrom n → ip.2 ∈ l := by
  intro l
  induction l with
  | nil => intro n ip h; cases h
  | cons a l ih =>
    intro n ip h
    rw [List.enumFrom_cons] at h
    rcases List.mem_cons.mp h with rfl | h2
    · exact List.mem_cons_self _ _
    · exact List.mem_cons_of_mem _ (ih (n + 1) ip h2)

theorem mem_of_mem_enum {α : Type} (l : List α) (ip : Nat × α)
    (h : ip ∈ l.enum) : ip.2 ∈ l :=
  mem_of_mem_enumFrom l 0 ip h

/-- Renumbering keeps every property except `MenuIndex`; in particular the
path string and the `Name` entry. -/
theorem setMenuIndex_property_other (p : Profile) (s : String)
    {X : Property} (hX : X ≠ Property.MenuIndex) :
    (p.setProperty Property.MenuIndex (QVariant.str s)).property X
      = p.property X :=
  Profile.property_setProperty_other p _ hX

theorem sortPartition_path (fb : String) :
    ∀ (l : List Profile) (acc : List Profile × List Profile),
      (∀ p ∈ acc.1, toQString (p.property Property.Path) ≠ fb) →
      (∀ p ∈ acc.2, toQString (p.property Property.Path) ≠ fb) →
      (∀ p ∈ (l.foldl (sortPartitionStep fb) acc).1,
        toQString (p.property Property.Path) ≠ fb) ∧
      (∀ p ∈ (l.foldl (sortPartitionStep fb) acc).2,
        toQString (p.property Property.Path) ≠ fb) := by
  intro l
  induction l with
  | nil => intro acc h1 h2; exact ⟨h1, h2⟩
  | cons p l ih =>
    intro acc h1 h2
    rw [List.foldl_cons]
    refine ih (sortPartitionStep fb acc p) ?_ ?_
    · intro p2 hp2
      unfold sortPartitionStep at hp2
      split at hp2
      · exact h1 p2 hp2
      · split at hp2
        · rcases List.mem_append.mp hp2 with h3 | h3
          · exact h1 p2 h3
          · rw [List.mem_singleton.mp h3]
            rename_i hne _
            exact hne
        · exact h1 p2 hp2
    · intro p2 hp2
      unfold sortPartitionStep at hp2
      split at hp2
      · exact h2 p2 hp2
      · split at hp2
        · exact h2 p2 hp2
        · rcases List.mem_append.mp hp2 with h3 | h3
          · exact h2 p2 h3
          · rw [List.mem_singleton.mp h3]
            rename_i hne _
            exact hne

/-- Extraction of the renumbered `MenuIndex` strings. -/
theorem renumber_values_from (f : Nat → String) :
    ∀ (ms : List Profile) (n : Nat),
      ((ms.enumFrom n).map
        (fun ip => ip.2.setProperty Property.MenuIndex
          (QVariant.str (f ip.1)))).map
        (fun q => toQString (q.property Property.MenuIndex))
      = (List.range' n ms.length).map f := by
  intro ms
  induction ms with
  | nil => intro n; rfl
  | cons a ms ih =>
    intro n
    rw [List.enumFrom_cons, List.map_cons, List.map_cons,
      List.length_cons, List.range'_succ, List.map_cons, ih (n + 1)]
    congr 1
    rw [Profile.property_setProperty_same]
    rfl

theorem renumber_values (f : Nat → String) (ms : List Profile) :
    (ms.enum.map
      (fun ip => ip.2.setProperty Property.MenuIndex
        (QVariant.str (f ip.1)))).map
      (fun q => toQString (q.property Property.MenuIndex))
    = (List.range ms.length).map f := by
  rw [List.enum, renumber_values_from f ms 0, List.range_eq_range']

/-- The claim's concrete example profiles. -/
def c5Zeta : Profile :=
  (Profile.empty.setProperty Property.Name
    (QVariant.str "Zeta")).setProperty Property.MenuIndex (QVariant.str "0")

def c5Abc : Profile :=
  (Profile.empty.setProperty Property.Name
    (QVariant.str "Abc")).setProperty Property.MenuIndex (QVariant.str "2")

def c5Mid : Profile :=
  (Profile.empty.setProperty Property.Name
    (QVariant.str "Mid")).setProperty Property.MenuIndex (QVariant.str "1")

/-- Two distinct profiles with the same positive menu index. -/
def c5pA : Profile :=
  (Profile.empty.setProperty Property.Name
    (QVariant.str "A")).setProperty Property.MenuIndex (QVariant.str "1")

def c5pB : Profile :=
  (Profile.empty.setProperty Property.Name
    (QVariant.str "B")).setProperty Property.MenuIndex (QVariant.str "1")

/-- C5 counterexample: two profiles with equal menu index 1, given in the
order [A, B], come out of `sortProfiles` in the order [B, A]: the "stable
sort, ties keep prior relative order" part of the claim is false, because
`profileIndexLessThan` is the non-strict `<=` and Qt's `qStableSort` swaps
a two-element range whenever `lessThan(second, first)` holds — which is the
case on ties. -/
theorem C5_counterexample :
    c5pA.menuIndexAsInt = c5pB.menuIndexAsInt ∧
    (sortProfiles "FALLBACK/" [c5pA, c5pB]).map
        (fun q => toQString (q.property Property.Name))
      = ["B", "A"] := by decide

/-- C5 (amended): `sortProfiles` excludes the fallback profile from the
output; the output is the indexed block followed by the unindexed block,
with the indexed block renumbered densely `1..k` and the unindexed block
continuing `k+1..`; ties between equal menu indices do NOT keep their prior
relative order — two profiles with the same positive index come out
reversed; on the claim's concrete input
`[Zeta(0), Abc(2), Mid(1)]` the result is `[Mid(→1), Abc(→2), Zeta(→3)]`
(the indexed block sorted by index ascending, the unindexed block after
it). -/
theorem C5_sortProfiles (fb : String) (l : List Profile) :
    (∀ q ∈ sortProfiles fb l, toQString (q.property Property.Path) ≠ fb) ∧
    ((sortProfiles fb l).map
        (fun q => toQString (q.property Property.MenuIndex))
      = ((List.range (sortPartition fb l).2.length).map
          (fun i => toString (i + 1)))
        ++ ((List.range (sortPartition fb l).1.length).map
          (fun j => toString (j + 1 + (sortPartition fb l).2.length)))) ∧
    (∀ p q : Profile,
      toQString (p.property Property.Path) ≠ fb →
      toQString (q.property Property.Path) ≠ fb →
      p.menuIndexAsInt = q.menuIndexAsInt → p.menuIndexAsInt ≠ 0 →
      (sortProfiles fb [p, q]).map (fun r => r.values Property.Name)
        = [q.values Property.Name, p.values Property.Name]) ∧
    ((sortProfiles "FALLBACK/" [c5Zeta, c5Abc, c5Mid]).map
        (fun q => toQString (q.property Property.Name))
      = ["Mid", "Abc", "Zeta"] ∧
     (sortProfiles "FALLBACK/" [c5Zeta, c5Abc, c5Mid]).map
        (fun q => toQString (q.property Property.MenuIndex))
      = ["1", "2", "3"]) := by
  refine ⟨?_, ?_, ?_, by decide⟩
  · intro q hq
    simp only [sortProfiles] at hq
    have hpart := sortPartition_path fb l ([], [])
      (by intro p hp; cases hp) (by intro p hp; cases hp)
    rcases List.mem_append.mp hq with hq2 | hq2
    · rcases List.mem_map.mp hq2 with ⟨ip, hip, rfl⟩
      have hmem : ip.2 ∈ (sortPartition fb l).2 :=
        (qtStableSort_perm profileIndexLessThan _).mem_iff.mp
          (mem_of_mem_enum _ ip hip)
      have := hpart.2 ip.2 hmem
      rw [setMenuIndex_property_other _ _ (by decide)]
      exact this
    · rcases List.mem_map.mp hq2 with ⟨ip, hip, rfl⟩
      have hmem : ip.2 ∈ (sortPartition fb l).1 :=
        (qtStableSort_perm profileNameLessThan _).mem_iff.mp
          (mem_of_mem_enum _ ip hip)
      have := hpart.1 ip.2 hmem
      rw [setMenuIndex_property_other _ _ (by decide)]
      exact this
  · simp only [sortProfiles]
    rw [List.map_append]
    rw [renumber_values (fun i => toString (i + 1))]
    rw [renumber_values (fun j => toString (j + 1
      + (qtStableSort profileIndexLessThan (sortPartition fb l).2).length))]
    rw [List.Perm.length_eq (qtStableSort_perm profileIndexLessThan _),
      List.Perm.length_eq (qtStableSort_perm profileNameLessThan _)]
  · intro p q hp hq hidx hnz
    have hqnz : q.menuIndexAsInt ≠ 0 := hidx ▸ hnz
    have hparts : sortPartition fb [p, q] = ([], [p, q]) := by
      unfold sortPartition
      rw [List.foldl_cons, List.foldl_cons, List.foldl_nil]
      unfold sortPartitionStep
      rw [if_neg hp, if_neg hnz, if_neg hq, if_neg hqnz]
      rfl
    have hlt : profileIndexLessThan q p = true := by
      unfold profileIndexLessThan
      rw [hidx]
      simp
    simp only [sortProfiles]
    rw [hparts]
    simp only
    rw [qtStableSort_pair, if_pos hlt]
    simp only [List.enum, List.enumFrom, List.map_cons, List.map_nil,
      List.map_append]
    simp [Profile.values_setProperty, PropMap.insert]

/-- Witness for C5: the tie-reversal conjunct applied at the two concrete
equal-index profiles. -/
theorem C5_sortProfiles_witness :
    (sortProfiles "FALLBACK/" [c5pA, c5pB]).map
        (fun r => r.values Property.Name)
      = [c5pB.values Property.Name, c5pA.values Property.Name] :=
  (C5_sortProfiles "FALLBACK/" []).2.2.1 c5pA c5pB (by decide) (by decide)
    (by decide) (by decide)

/-! ## SessionManager::loadProfile (SessionManager.cpp lines 108-191) -/

/-- `QFileInfo::suffix`: the part of the file name after its last dot,
empty when the file name has no dot. -/
def fileSuffix (s : String) : String :=
  let rfn := s.data.reverse.takeWhile (fun c => c ≠ '/')
  if '.' ∈ rfn then String.mk (rfn.takeWhile (fun c => c ≠ '.')).reverse
  else ""

/-- `QFileInfo::path`: the directory part of the path; `"."` for a bare
relative name, `""` for the empty path. -/
def filePathDir (s : String) : String :=
  if '/' ∈ s.data then
    let rdir := (s.data.reverse.dropWhile (fun c => c ≠ '/')).drop 1
    if rdir.isEmpty then "/" else String.mk rdir.reverse
  else if s.data.isEmpty then "" else "."

/-- `QFileInfo::isAbsolute`. -/
def isAbsolutePath (s : String) : Bool :=
  match s.data with
  | '/' :: _ => true
  | _ => false

/-- `QString::endsWith`. -/
def strEndsWith (s suf : String) : Bool :=
  s.data.reverse.take suf.data.length = suf.data.reverse

/-- Environment consumed by `loadProfile`: the resource lookup
(`KStandardDirs::locate("data", ·)`, empty when not found), the profile
files on disk keyed by resolved path, directory-ness of raw inputs
(`QFileInfo::isDir`), and the process environment the fallback profile
bakes in. -/
structure LoadEnv where
  locate : String → String
  fileConfig : String → Option KConfig
  isDir : String → Bool
  shellEnv : String
  fixedFont : String
  localeCodec : String

/-- The `FallbackProfile` constructor (Profile.cpp lines 148-203): every
default property in source order, then hidden. -/
def fallbackProfile (env : LoadEnv) : Profile :=
  ((((((((((((((((((((((((((((((((((((((Profile.empty.setProperty
    Property.Name (QVariant.str "Shell")).setProperty
    Property.Path (QVariant.str "FALLBACK/")).setProperty
    Property.Command (QVariant.str env.shellEnv)).setProperty
    Property.Icon (QVariant.str "utilities-terminal")).setProperty
    Property.Arguments (QVariant.strList [env.shellEnv])).setProperty
    Property.Environment (QVariant.strList ["TERM=xterm"])).setProperty
    Property.LocalTabTitleFormat (QVariant.str "%D : %n")).setProperty
    Property.RemoteTabTitleFormat (QVariant.str "(%u) %H")).setProperty
    Property.TabBarMode (QVariant.int 2)).setProperty
    Property.TabBarPosition (QVariant.int 0)).setProperty
    Property.NewTabBehavior (QVariant.int 0)).setProperty
    Property.ShowMenuBar (QVariant.bool true)).setProperty
    Property.ShowTerminalSizeHint (QVariant.bool true)).setProperty
    Property.SaveGeometryOnExit (QVariant.bool true)).setProperty
    Property.StartInCurrentSessionDir (QVariant.bool true)).setProperty
    Property.ShowNewAndCloseTabButtons (QVariant.bool false)).setProperty
    Property.MenuIndex (QVariant.str "0")).setProperty
    Property.SilenceSeconds (QVariant.int 10)).setProperty
    Property.KeyBindings (QVariant.str "default")).setProperty
    Property.ColorScheme (QVariant.str "Linux")).setProperty
    Property.Font (QVariant.font env.fixedFont)).setProperty
    Property.HistoryMode (QVariant.int 1)).setProperty
    Property.HistorySize (QVariant.int 1000)).setProperty
    Property.ScrollBarPosition (QVariant.int 1)).setProperty
    Property.FlowControlEnabled (QVariant.bool true)).setProperty
    Property.AllowProgramsToResizeWindow (QVariant.bool true)).setProperty
    Property.BlinkingTextEnabled (QVariant.bool true)).setProperty
    Property.UnderlineLinksEnabled (QVariant.bool true)).setProperty
    Property.TripleClickMode (QVariant.int 0)).setProperty
    Property.BlinkingCursorEnabled (QVariant.bool false)).setProperty
    Property.BidiRenderingEnabled (QVariant.bool false)).setProperty
    Property.CJKAmbiguousWide (QVariant.bool false)).setProperty
    Property.CursorShape (QVariant.int 0)).setProperty
    Property.UseCustomCursorColor (QVariant.bool false)).setProperty
    Property.CustomCursorColor (QVariant.color "black")).setProperty
    Property.DefaultEncoding (QVariant.str env.localeCodec)).setProperty
    Property.AntiAliasFonts (QVariant.bool true)).setProperty
    Property.BoldIntense (QVariant.bool true)).setProperty
    Property.WordCharacters
      (QVariant.str ":@-./_~?&=%+#") |>.withHidden true

/-- The manager state `loadProfile` touches: the loaded-profile set
(insertion order; new objects are always distinct, so `QSet::insert`
appends), the default profile, and the process-wide recursion-guard stack
(head = top). -/
structure LoadState where
  profiles : List Profile
  defaultP : Option Profile
  stack : List String

/-- Modelled from the spec: the destructor of the `PopStackOnExit` guard
class (its definition is not among the provided sources) — "pop
unconditionally on function exit (including early returns)" (spec section
4.4).  The guard object is constructed before the cycle check, so every
exit taken after that point pops the top of the shared stack, even the
cycle-detected early return which pushed nothing. -/
def popGuard (st : LoadState) : LoadState :=
  { st with stack := st.stack.tail }

/-- `SessionManager::addProfile` (SessionManager.cpp lines 553-561) on the
load-state. -/
def LoadState.addProfile (st : LoadState) (p : Profile) : LoadState :=
  let st1 := if st.profiles.isEmpty then { st with defaultP := some p }
             else st
  { st1 with profiles := st1.profiles ++ [p] }

/-- `KDE4ProfileReader::readProfile` (Profile.cpp lines 397-420) against
the filesystem: fails when the file does not exist, otherwise reads the
config contents.  Returns (result, profile, parent-path out parameter). -/
def readProfileFS (env : LoadEnv) (path : String) (profile : Profile) :
    Bool × Profile × String :=
  match env.fileConfig path with
  | none => (false, profile, "")
  | some cfg =>
    let pr := readProfileConfig cfg profile
    (true, pr.1, pr.2)

/-- `SessionManager::loadProfile` (SessionManager.cpp lines 108-191).  The
fuel dominates the recursion depth through parent resolution; the guard
stack bounds the real recursion, so any fuel at least the number of
distinct profile files plus one yields the same result.  Before the
recursion guard is constructed (fallback shortcut, directory check,
canonicalization, already-loaded scan) exits do not pop the stack; after
it, every exit pops. -/
def loadProfile (env : LoadEnv) :
    Nat → LoadState → String → Option Profile × LoadState
  | 0, st, _ => (none, st)
  | fuel + 1, st, shortPath =>
    if shortPath
        = toQString ((fallbackProfile env).property Property.Path) then
      (some (fallbackProfile env), st)
    else if env.isDir shortPath then
      (none, st)
    else
      let path1 := if fileSuffix shortPath ≠ "profile"
        then shortPath ++ ".profile" else shortPath
      let path2 := if filePathDir shortPath = "" ∨ filePathDir shortPath = "."
        then "konsole/" ++ path1 else path1
      let path := if isAbsolutePath shortPath = false
        then env.locate path2 else path2
      match st.profiles.find?
        (fun p => toQString (p.property Property.Path) = path) with
      | some p => (some p, st)
      | none =>
        if path ∈ st.stack then
          (some (fallbackProfile env), popGuard st)
        else
          let st1 := { st with stack := path :: st.stack }
          if strEndsWith path ".desktop" then
            (none, popGuard st1)
          else
            let newP := (Profile.mk PropMap.empty
              (some (fallbackProfile env)) false).setProperty Property.Path
              (QVariant.str path)
            let r := readProfileFS env path newP
            let pr :=
              if r.2.2 ≠ "" then
                let sub := loadProfile env fuel st1 r.2.2
                (r.2.1.withParent sub.1, sub.2)
              else (r.2.1, st1)
            if r.1 = false then (none, popGuard pr.2)
            else (some pr.1, popGuard (pr.2.addProfile pr.1))

/-- The two cyclic profile files of the claim: `A.profile` names
`B.profile` as its parent and vice versa. -/
def cycConfigA : KConfig :=
  KConfig.empty.writeEntry "General" "Parent" (QVariant.str "B.profile")

def cycConfigB : KConfig :=
  KConfig.empty.writeEntry "General" "Parent" (QVariant.str "A.profile")

def cycEnv : LoadEnv :=
  { locate := fun p2 =>
      if p2 = "konsole/A.profile" then "/data/konsole/A.profile"
      else if p2 = "konsole/B.profile" then "/data/konsole/B.profile"
      else ""
  , fileConfig := fun path =>
      if path = "/data/konsole/A.profile" then some cycConfigA
      else if path = "/data/konsole/B.profile" then some cycConfigB
      else none
  , isDir := fun _ => false
  , shellEnv := "/bin/bash"
  , fixedFont := "monospace"
  , localeCodec := "UTF-8" }

/-- Manager state after startup: the fallback profile is loaded and is the
default, the guard stack is empty. -/
def cycState : LoadState :=
  { profiles := [fallbackProfile cycEnv]
  , defaultP := some (fallbackProfile cycEnv)
  , stack := [] }

/-- C3 counterexample: on the cyclic pair, `loadProfile("A.profile")`
terminates but does NOT yield the fallback profile: it yields profile A
(path `/data/konsole/A.profile`, distinct from the fallback's sentinel path
`FALLBACK/`). -/
theorem C3_counterexample :
    ((loadProfile cycEnv 5 cycState "A.profile").1.map
        (fun p => toQString (p.property Property.Path)))
      = some "/data/konsole/A.profile" ∧
    toQString ((fallbackProfile cycEnv).property Property.Path)
      = "FALLBACK/" ∧
    ("/data/konsole/A.profile" : String) ≠ "FALLBACK/" := by decide

/-- C3 (amended): on the cyclic pair, `loadProfile("A.profile")`
terminates; the revisited path is detected on the in-flight stack by the
innermost recursive load, which returns the fallback profile, so the
fallback is substituted for the cyclic parent: the overall result is
profile A, whose parent is profile B, whose parent is the fallback.  The
guard stack is empty again afterwards. -/
theorem C3_cycle_load :
    ((loadProfile cycEnv 5 cycState "A.profile").1.map
        (fun p => toQString (p.property Property.Path)))
      = some "/data/konsole/A.profile" ∧
    (((loadProfile cycEnv 5 cycState "A.profile").1.bind
        Profile.parentOf).map
        (fun p => toQString (p.property Property.Path)))
      = some "/data/konsole/B.profile" ∧
    ((((loadProfile cycEnv 5 cycState "A.profile").1.bind
        Profile.parentOf).bind Profile.parentOf).map
        (fun p => toQString (p.property Property.Path)))
      = some "FALLBACK/" ∧
    ((loadProfile cycEnv 5 cycState "A.profile").2.stack = []) ∧
    ((loadProfile cycEnv 3
        { cycState with
          stack := ["/data/konsole/B.profile", "/data/konsole/A.profile"] }
        "A.profile").1.map
        (fun p => toQString (p.property Property.Path)))
      = some "FALLBACK/" := by decide

end Konsole
